import Mathlib

/-! pdf-chat-ui: the streaming answer pipeline of `App.jsx`.

A shallow embedding of `messageReducer` and of `sendMessage` (the read loop,
its flush policy and its `catch` / `finally` paths) from
`src/pdf-chat-ui/src/App.jsx`, followed by the properties proved about them.

JavaScript strings are sequences of UTF-16 code units, so `buffer.length`,
`String.prototype.trim` and the regular expressions of the source are modelled
on lists of code units. `Date.now()` values are integers supplied by the
environment.
-/

namespace PdfChat

/-! ## JavaScript strings -/

/-- A JavaScript string: its UTF-16 code units. -/
abbrev JSString := List Nat

/-- UTF-16 code units of one Unicode scalar value. -/
def utf16Units (cp : Nat) : List Nat :=
  if cp < 0x10000 then [cp]
  else [0xD800 + (cp - 0x10000) / 0x400, 0xDC00 + (cp - 0x10000) % 0x400]

/-- The JavaScript string denoted by a string literal. -/
def lit (s : String) : JSString :=
  s.toList.flatMap (fun c => utf16Units c.toNat)

/-- The class `\s` of a JavaScript regular expression, which is also the set
of code units that `String.prototype.trim` strips (WhiteSpace and
LineTerminator). -/
def isSpace (c : Nat) : Bool :=
  c == 0x09 || c == 0x0A || c == 0x0B || c == 0x0C || c == 0x0D || c == 0x20 ||
  c == 0xA0 || c == 0x1680 || (0x2000 ≤ c && c ≤ 0x200A) ||
  c == 0x2028 || c == 0x2029 || c == 0x202F || c == 0x205F || c == 0x3000 ||
  c == 0xFEFF

/-- The function `String.prototype.trim`. -/
def trim (s : JSString) : JSString :=
  ((s.dropWhile isSpace).reverse.dropWhile isSpace).reverse

/-- The character class `[.!?\n]` of line 923. -/
def isSentenceEnd (c : Nat) : Bool :=
  c == 0x2E || c == 0x21 || c == 0x3F || c == 0x0A

/-- Whether `/[.!?\n]\s*$/` matches when the class character is tried at every
start position of `s`: the rest of `s` after it must be `\s*` up to the end of
the input. -/
def sentenceBreakFrom : JSString → Bool
  | [] => false
  | c :: rest => (isSentenceEnd c && rest.all isSpace) || sentenceBreakFrom rest

/-- The test `/[.!?\n]\s*$/.test(buffer)` of line 923. -/
def testSentenceBreak (buffer : JSString) : Bool := sentenceBreakFrom buffer

/-- The test `/\s$/.test(buffer)` of lines 924 and 942: the last code unit is
white space. -/
def testEndsInSpace (buffer : JSString) : Bool :=
  match buffer.getLast? with
  | some c => isSpace c
  | none => false

/-! ## The message log and its reducer -/

/-- One conversation turn, as the object literals of `sendMessage` build it.
The field `error` is `true` when the literal carries `error: true`. -/
structure Message where
  id : JSString
  role : JSString
  content : JSString
  error : Bool
  deriving DecidableEq, Repr

/-- The actions `messageReducer` distinguishes; `other` is any action whose
`type` falls to the `default` branch. -/
inductive Action where
  | addMessage (payload : Message)
  | updateLastMessage (payload : JSString)
  | removeLastMessage
  | updateMessageById (id : JSString) (content : JSString)
  | setMessages (payload : List Message)
  | other
  deriving DecidableEq, Repr

/-- The `state.map((msg, index) => ...)` of `UPDATE_LAST_MESSAGE`, with the
index of the head of the remaining list carried along. -/
def mapLastFrom (n : Nat) (payload : JSString) : Nat → List Message → List Message
  | _, [] => []
  | i, m :: ms =>
    (if i + 1 = n then { m with content := payload } else m)
      :: mapLastFrom n payload (i + 1) ms

/-- The function `messageReducer` (lines 25-44). -/
def messageReducer (state : List Message) : Action → List Message
  | .addMessage payload => state ++ [payload]
  | .updateLastMessage payload => mapLastFrom state.length payload 0 state
  | .removeLastMessage => state.dropLast
  | .updateMessageById id content =>
    state.map (fun msg => if msg.id = id then { msg with content := content } else msg)
  | .setMessages payload => payload
  | .other => state

/-! ## The streaming UTF-8 decoder

`new TextDecoder("utf-8")` with `decode(value, { stream: true })` (lines 885
and 912) is the UTF-8 decoder of the WHATWG Encoding standard in replacement
error mode, with the byte-order mark removed from the start of the output. -/

/-- State of the UTF-8 decoder between two bytes, together with the
`BOM seen` flag of the `TextDecoder` object. -/
structure Utf8State where
  codePoint : Nat
  bytesSeen : Nat
  bytesNeeded : Nat
  lowerBoundary : Nat
  upperBoundary : Nat
  bomSeen : Bool
  deriving DecidableEq, Repr

/-- A fresh decoder. -/
def Utf8State.init : Utf8State :=
  { codePoint := 0, bytesSeen := 0, bytesNeeded := 0,
    lowerBoundary := 0x80, upperBoundary := 0xBF, bomSeen := false }

/-- The decoder with its multi-byte state reset (the `BOM seen` flag stays). -/
def Utf8State.reset (s : Utf8State) : Utf8State :=
  { Utf8State.init with bomSeen := s.bomSeen }

/-- The handler of the UTF-8 decoder for a byte read while no multi-byte
sequence is open: the new state and the code points emitted (`0xFFFD` for an
error). -/
def utf8Lead (s : Utf8State) (b : Nat) : Utf8State × List Nat :=
  if b ≤ 0x7F then (s, [b])
  else if 0xC2 ≤ b ∧ b ≤ 0xDF then
    ({ s with bytesNeeded := 1, codePoint := b % 0x20 }, [])
  else if 0xE0 ≤ b ∧ b ≤ 0xEF then
    ({ s with bytesNeeded := 2, codePoint := b % 0x10,
              lowerBoundary := if b = 0xE0 then 0xA0 else s.lowerBoundary,
              upperBoundary := if b = 0xED then 0x9F else s.upperBoundary }, [])
  else if 0xF0 ≤ b ∧ b ≤ 0xF4 then
    ({ s with bytesNeeded := 3, codePoint := b % 0x08,
              lowerBoundary := if b = 0xF0 then 0x90 else s.lowerBoundary,
              upperBoundary := if b = 0xF4 then 0x8F else s.upperBoundary }, [])
  else (s, [0xFFFD])

/-- The handler of the UTF-8 decoder for one byte. A byte outside the
boundaries of an open sequence is an error and is then read again by the reset
decoder. -/
def utf8Byte (s : Utf8State) (b : Nat) : Utf8State × List Nat :=
  if s.bytesNeeded = 0 then utf8Lead s b
  else if b < s.lowerBoundary ∨ s.upperBoundary < b then
    let r := utf8Lead s.reset b
    (r.1, 0xFFFD :: r.2)
  else
    let cp := s.codePoint * 0x40 + b % 0x40
    if s.bytesSeen + 1 = s.bytesNeeded then (s.reset, [cp])
    else ({ s with codePoint := cp, bytesSeen := s.bytesSeen + 1,
                   lowerBoundary := 0x80, upperBoundary := 0xBF }, [])

/-- Serialising the decoder's output: the first code point is dropped when it
is the byte-order mark, and what is left is written as UTF-16. -/
def serialize (s : Utf8State) : List Nat → Utf8State × JSString
  | [] => (s, [])
  | cp :: cps =>
    if s.bomSeen then
      let r := serialize s cps
      (r.1, utf16Units cp ++ r.2)
    else
      let r := serialize { s with bomSeen := true } cps
      (r.1, if cp = 0xFEFF then r.2 else utf16Units cp ++ r.2)

/-- The call `decoder.decode(value, { stream: true })` of line 912: every
byte of `value` goes through the decoder, whose state is kept for the next
call; an unfinished sequence at the end of `value` emits nothing. -/
def decodeStream (s : Utf8State) : List Nat → Utf8State × JSString
  | [] => (s, [])
  | b :: bs =>
    let r := utf8Byte s b
    let o := serialize r.1 r.2
    let rest := decodeStream o.1 bs
    (rest.1, o.2 ++ rest.2)

/-- The call `new TextDecoder("utf-8").decode(bytes)`, which decodes a whole
byte sequence at once: at the end of the input an unfinished sequence is an
error and emits `0xFFFD`. -/
def decodeWhole (bytes : List Nat) : JSString :=
  let r := decodeStream Utf8State.init bytes
  if r.1.bytesNeeded = 0 then r.2
  else r.2 ++ (serialize r.1 [0xFFFD]).2

/-- The texts that the successive `decoder.decode(value, { stream: true })`
calls of the read loop return for the chunks `values`, in order. -/
def decodeChunks (s : Utf8State) : List (List Nat) → List JSString
  | [] => []
  | value :: values =>
    let r := decodeStream s value
    r.2 :: decodeChunks r.1 values

/-! ## The read loop of `sendMessage` (lines 884-950) -/

/-- The local variables of the read loop: `fullText`, `buffer`,
`lastUpdateTime`, `inWord` and the state of `decoder`. -/
structure LoopState where
  fullText : JSString
  buffer : JSString
  lastUpdateTime : Int
  inWord : Bool
  decoder : Utf8State
  deriving DecidableEq, Repr

/-- The constant `UPDATE_INTERVAL` of line 893, in milliseconds. -/
def UPDATE_INTERVAL : Int := 30

/-- The value `hasNaturalBreak` of lines 923-925, for the buffer after the
chunk has been appended. -/
def hasNaturalBreak (buffer : JSString) (inWord : Bool) : Bool :=
  testSentenceBreak buffer || (testEndsInSpace buffer && inWord) ||
    decide (buffer.length > 15)

/-- The condition of the `if` of line 927. -/
def shouldFlush (buffer : JSString) (inWord : Bool) (timeSinceLastUpdate : Int) : Bool :=
  decide (timeSinceLastUpdate ≥ UPDATE_INTERVAL) && hasNaturalBreak buffer inWord

/-- The variables at line 886-896, before the first read; `now` is the
`Date.now()` of line 892. -/
def LoopState.start (now : Int) : LoopState :=
  { fullText := [], buffer := [], lastUpdateTime := now, inWord := false,
    decoder := Utf8State.init }

/-- One iteration of the loop whose read delivered the decoded text `chunk`
(lines 913-943), `now` being the `Date.now()` of line 915: the new variables
and the actions dispatched. -/
def onChunk (assistantMessageId : JSString) (s : LoopState) (chunk : JSString)
    (now : Int) : LoopState × List Action :=
  let buffer := s.buffer ++ chunk
  let timeSinceLastUpdate := now - s.lastUpdateTime
  if shouldFlush buffer s.inWord timeSinceLastUpdate then
    let fullText := s.fullText ++ buffer
    ({ s with fullText := fullText, buffer := [], lastUpdateTime := now, inWord := false },
     [Action.updateMessageById assistantMessageId fullText])
  else
    ({ s with buffer := buffer,
              inWord := decide (buffer.length > 0) && !testEndsInSpace buffer }, [])

/-- One iteration of the loop whose read delivered the bytes `value`
(lines 912-943). -/
def onValue (assistantMessageId : JSString) (s : LoopState) (value : List Nat)
    (now : Int) : LoopState × List Action :=
  let r := decodeStream s.decoder value
  onChunk assistantMessageId { s with decoder := r.1 } r.2 now

/-- The iteration whose read reports `done` (lines 900-910), followed by the
dispatch after the loop (lines 946-950). -/
def onDone (assistantMessageId : JSString) (s : LoopState) : LoopState × List Action :=
  if s.buffer ≠ [] then
    let fullText := s.fullText ++ s.buffer
    ({ s with fullText := fullText },
     [Action.updateMessageById assistantMessageId fullText,
      Action.updateMessageById assistantMessageId fullText])
  else
    (s, [Action.updateMessageById assistantMessageId s.fullText])

/-- The iterations of the loop for the successive reads that deliver bytes,
each with the `Date.now()` of its iteration. -/
def readLoop (assistantMessageId : JSString) :
    LoopState → List (List Nat × Int) → LoopState × List Action
  | s, [] => (s, [])
  | s, (value, now) :: reads =>
    let r := onValue assistantMessageId s value now
    let rest := readLoop assistantMessageId r.1 reads
    (rest.1, r.2 ++ rest.2)

/-! ## `sendMessage` (lines 836-980) -/

/-- A thrown value, as the `catch` block reads it: `error.name` and
`error.message`. -/
structure JSError where
  name : JSString
  message : JSString
  deriving DecidableEq, Repr

/-- The value `new Error(message)`. -/
def JSError.ofMessage (message : JSString) : JSError :=
  { name := lit "Error", message := message }

/-- How the reads of the response body end: `reader.read()` reports `done`, or
it rejects (with an `AbortError` after `abort()`, or with a transport error). -/
inductive StreamEnd where
  | done
  | rejected (error : JSError)
  deriving DecidableEq, Repr

/-- What `await fetch(...)` of line 867 yields: a rejection, or a response
with its status, the `Date.now()` of line 892, the chunks its body delivers
(each with the `Date.now()` of line 915) and the way the body ends. -/
inductive FetchOutcome where
  | rejected (error : JSError)
  | response (status : Nat) (start : Int) (reads : List (List Nat × Int)) (ending : StreamEnd)
  deriving DecidableEq, Repr

/-- The attribute `response.ok`: the status is in the range 200-299. -/
def responseOk (status : Nat) : Bool := decide (200 ≤ status ∧ status ≤ 299)

/-- The argument `content` of a call: absent (`sendMessage()`), a string (the
quick actions), or the click event that `onClick={sendMessage}` passes. -/
inductive SendArg where
  | undefined
  | text (s : JSString)
  | event
  deriving DecidableEq, Repr

/-- The values of the render that a call of `sendMessage` closes over. -/
structure Render where
  messageState : List Message
  input : JSString
  isSending : Bool
  selectedPdf : JSString
  documentsLength : Nat
  deriving DecidableEq, Repr

/-- What the environment supplies to one call: the `Date.now()` of lines 848,
849 and 968, the `AbortController` allocated at line 864 and the outcome of
the request. -/
structure SendEnv where
  userClock : Int
  assistantClock : Int
  controller : Nat
  fetched : FetchOutcome
  errorClock : Int
  deriving DecidableEq, Repr

/-- The state changes and calls that `sendMessage` and `stopGeneration` make,
in order. -/
inductive Effect where
  | dispatch (action : Action)
  | setInput (value : JSString)
  | setIsSending (value : Bool)
  | setStreamingMessageId (value : Option JSString)
  | setAbortController (value : Option Nat)
  | abort (controller : Nat)
  | fetchAsk (question : JSString) (documentId : JSString)
  | addToast (message : JSString) (type : JSString)
  deriving DecidableEq, Repr

/-- The value `content || input` of line 837 with the default `content = input`
of line 836; `none` for the click event, which is truthy and has no `trim`, so
that line 838 throws a `TypeError` before anything else happens. -/
def messageContentOf (content : SendArg) (input : JSString) : Option JSString :=
  match content with
  | .undefined => some input
  | .text s => some (if s ≠ [] then s else input)
  | .event => none

/-- The id of line 848. -/
def userMessageIdOf (clock : Int) : JSString := lit "user-" ++ lit (toString clock)

/-- The id of line 849. -/
def assistantMessageIdOf (clock : Int) : JSString :=
  lit "assistant-" ++ lit (toString (clock + 1))

/-- The id of line 968. -/
def errorMessageIdOf (clock : Int) : JSString := lit "error-" ++ lit (toString clock)

/-- The suffix that the `AbortError` branch appends (line 959). -/
def stoppedMarker : JSString := lit "\n\n_Generation stopped_"

/-- The body of the `try` (lines 867-950) after the request has been sent: the
actions dispatched and the value thrown, if any. -/
def tryBlock (assistantMessageId : JSString) : FetchOutcome → List Action × Option JSError
  | .rejected error => ([], some error)
  | .response status start reads ending =>
    if !responseOk status then
      if status = 404 then
        ([], some (JSError.ofMessage (lit "Document not found. Please reselect.")))
      else ([], some (JSError.ofMessage (lit "Failed to get response")))
    else
      let r := readLoop assistantMessageId (LoopState.start start) reads
      match ending with
      | .done => (r.2 ++ (onDone assistantMessageId r.1).2, none)
      | .rejected error => (r.2, some error)

/-- The expression `messageState.find(m => m.id === assistantMessageId)?.content || ''`
of line 954, on the `messageState` of the render the call closed over. -/
def currentContentOf (messageState : List Message) (assistantMessageId : JSString) : JSString :=
  match messageState.find? (fun m => decide (m.id = assistantMessageId)) with
  | some m => m.content
  | none => []

/-- The `catch` block (lines 952-975). -/
def catchBlock (r : Render) (assistantMessageId : JSString) (errorClock : Int)
    (error : JSError) : List Effect :=
  if error.name = lit "AbortError" then
    [Effect.dispatch (Action.updateMessageById assistantMessageId
      (currentContentOf r.messageState assistantMessageId ++ stoppedMarker))]
  else
    [Effect.dispatch Action.removeLastMessage,
     Effect.dispatch (Action.addMessage
       { id := errorMessageIdOf errorClock, role := lit "assistant",
         content := lit "❌ " ++
           (if error.message ≠ [] then error.message
            else lit "Sorry, an error occurred. Please try again."),
         error := true }),
     Effect.addToast
       (if error.message ≠ [] then error.message else lit "Failed to get response")
       (lit "error")]

/-- The effects of lines 844-979, for a call that passed the guards of lines
838-842 with the question `messageContent`. -/
def acceptedSend (r : Render) (messageContent : JSString) (env : SendEnv) : List Effect :=
  let userMessageId := userMessageIdOf env.userClock
  let assistantMessageId := assistantMessageIdOf env.assistantClock
  let t := tryBlock assistantMessageId env.fetched
  [Effect.setInput [],
   Effect.setIsSending true,
   Effect.dispatch (Action.addMessage
     { id := userMessageId, role := lit "user", content := messageContent, error := false }),
   Effect.dispatch (Action.addMessage
     { id := assistantMessageId, role := lit "assistant", content := [], error := false }),
   Effect.setStreamingMessageId (some assistantMessageId),
   Effect.setAbortController (some env.controller),
   Effect.fetchAsk messageContent r.selectedPdf]
  ++ t.1.map Effect.dispatch
  ++ (match t.2 with
      | some error => catchBlock r assistantMessageId env.errorClock error
      | none => [])
  ++ [Effect.setIsSending false, Effect.setStreamingMessageId none]

/-- The function `sendMessage` (lines 836-980): the effects of one call, in
order. -/
def sendMessage (r : Render) (content : SendArg) (env : SendEnv) : List Effect :=
  match messageContentOf content r.input with
  | none => []
  | some messageContent =>
    if trim messageContent = [] ∨ r.isSending = true then []
    else if r.selectedPdf = [] ∧ r.documentsLength > 0 then
      [Effect.addToast (lit "Please select a PDF document first") (lit "error")]
    else acceptedSend r messageContent env

/-! ## The component state that the effects act on -/

/-- The state of `App` that `sendMessage` and `stopGeneration` write:
the reducer state, `input`, `isSending`, `streamingMessageId`,
`abortControllerRef.current` and the notifications raised. -/
structure AppState where
  messageState : List Message
  input : JSString
  isSending : Bool
  streamingMessageId : Option JSString
  abortController : Option Nat
  toasts : List (JSString × JSString)
  deriving DecidableEq, Repr

/-- One effect applied to the component state. -/
def applyEffect (st : AppState) : Effect → AppState
  | .dispatch action => { st with messageState := messageReducer st.messageState action }
  | .setInput value => { st with input := value }
  | .setIsSending value => { st with isSending := value }
  | .setStreamingMessageId value => { st with streamingMessageId := value }
  | .setAbortController value => { st with abortController := value }
  | .abort _ => st
  | .fetchAsk _ _ => st
  | .addToast message type => { st with toasts := st.toasts ++ [(message, type)] }

/-- The effects of a call applied in order. -/
def applyEffects (st : AppState) (effects : List Effect) : AppState :=
  effects.foldl applyEffect st

/-- The actions among a list of effects, in order. -/
def dispatched : List Effect → List Action
  | [] => []
  | .dispatch action :: rest => action :: dispatched rest
  | _ :: rest => dispatched rest

/-- The contents of the `UPDATE_MESSAGE_BY_ID` actions for the turn `id`, in
order. -/
def updateContents (id : JSString) : List Action → List JSString
  | [] => []
  | .updateMessageById i content :: rest =>
    if i = id then content :: updateContents id rest else updateContents id rest
  | _ :: rest => updateContents id rest

/-- A render in which nothing has been sent yet: the log holds the welcome
turn of line 583 only, one document is listed and selected. -/
def welcomeRender (input : JSString) : Render :=
  { messageState :=
      [{ id := lit "initial", role := lit "assistant", content := lit "# 👋 Welcome to **NeoChat**!\n\nYour intelligent PDF companion with a modern twist.\n\n## ✨ What I can do for you:\n\n- 📄 **Summarize** lengthy documents\n- 🔍 **Answer** specific questions\n- 📊 **Extract** key information\n- 💡 **Provide insights** and analysis\n\n---\n\n🚀 **Get started** by uploading a PDF document and asking away!",
         error := false }],
    input := input, isSending := false, selectedPdf := lit "doc-1", documentsLength := 1 }

/-! ## Auxiliary definitions for the statements -/

/-- A call passes the guards of lines 838-842 with the question `q`. -/
def Accepted (r : Render) (content : SendArg) (q : JSString) : Prop :=
  messageContentOf content r.input = some q ∧ trim q ≠ [] ∧ r.isSending = false ∧
    ¬ (r.selectedPdf = [] ∧ r.documentsLength > 0)

instance (r : Render) (content : SendArg) (q : JSString) : Decidable (Accepted r content q) :=
  inferInstanceAs (Decidable (_ ∧ _ ∧ _ ∧ _))

/-- The relation between two successive contents flushed inside the loop. -/
def Grows (a b : JSString) : Prop := a <+: b ∧ a.length < b.length

/-- UTF-8 bytes of one Unicode scalar value. -/
def utf8Bytes (cp : Nat) : List Nat :=
  if cp < 0x80 then [cp]
  else if cp < 0x800 then [0xC0 + cp / 0x40, 0x80 + cp % 0x40]
  else if cp < 0x10000 then [0xE0 + cp / 0x1000, 0x80 + cp / 0x40 % 0x40, 0x80 + cp % 0x40]
  else [0xF0 + cp / 0x40000, 0x80 + cp / 0x1000 % 0x40, 0x80 + cp / 0x40 % 0x40,
        0x80 + cp % 0x40]

/-- The UTF-8 bytes of a string literal, as a server would send them. -/
def bytesOf (s : String) : List Nat :=
  s.toList.flatMap (fun c => utf8Bytes c.toNat)

/-- An environment for examples: the clock reads 1000 when the ids are made,
the request is answered by `fetched`. -/
def envWith (fetched : FetchOutcome) : SendEnv :=
  { userClock := 1000, assistantClock := 1000, controller := 1, fetched := fetched,
    errorClock := 2000 }

/-- The component state at the render `r`, before the call: the log and the
flags are those the call closes over, no request is in flight. -/
def AppState.ofRender (r : Render) : AppState :=
  { messageState := r.messageState, input := r.input, isSending := r.isSending,
    streamingMessageId := none, abortController := none, toasts := [] }

/-- The log after a call made at the render `r`, no other call interleaved. -/
def finalLog (r : Render) (content : SendArg) (env : SendEnv) : List Message :=
  (applyEffects (AppState.ofRender r) (sendMessage r content env)).messageState

/-- The content of the first turn of a log that carries the id. -/
def contentOf (log : List Message) (id : JSString) : Option JSString :=
  (log.find? (fun m => decide (m.id = id))).map (fun m => m.content)

/-- The user turn of lines 851-854. -/
def userTurn (clock : Int) (question : JSString) : Message :=
  { id := userMessageIdOf clock, role := lit "user", content := question, error := false }

/-- The error turn of lines 965-973. -/
def errorTurn (clock : Int) (error : JSError) : Message :=
  { id := errorMessageIdOf clock, role := lit "assistant",
    content := lit "❌ " ++
      (if error.message ≠ [] then error.message
       else lit "Sorry, an error occurred. Please try again."),
    error := true }

/-- A response whose first chunk, `The document is ` (16 code units), arrives
39 ms after the loop started and is flushed, and whose next read rejects with
`error`. -/
def flushedThenRejected (error : JSError) : FetchOutcome :=
  FetchOutcome.response 200 1001 [(bytesOf "The document is ", 1040)]
    (StreamEnd.rejected error)

/-- The byte sequence stops inside a multi-byte character: after the last byte
the decoder still waits for continuation bytes. -/
def endsInsideCharacter (bytes : List Nat) : Bool :=
  decide ((decodeStream Utf8State.init bytes).1.bytesNeeded ≠ 0)

/-- The natural-break condition as the specification words it, on the buffer
alone: the buffer ends in `.`, `!`, `?` or a newline, or it ends in a white
space character that immediately follows a non-white-space character, or it
is longer than 15. -/
def specNaturalBreak (buffer : JSString) : Bool :=
  (match buffer.reverse with
   | c :: _ => isSentenceEnd c
   | [] => false) ||
  (match buffer.reverse with
   | c :: d :: _ => isSpace c && !isSpace d
   | _ => false) ||
  decide (buffer.length > 15)

/-- The flush condition as the specification words it. -/
def specShouldFlush (buffer : JSString) (timeSinceLastUpdate : Int) : Bool :=
  decide (timeSinceLastUpdate ≥ 30) && specNaturalBreak buffer

/-- An iteration flushed: it dispatched the accumulated text and emptied the
buffer. -/
def flushed (r : LoopState × List Action) : Bool :=
  !r.2.isEmpty && r.1.buffer.isEmpty

/-- The ids of the turns of a log, in order. -/
def idsOf (log : List Message) : List JSString := log.map (fun m => m.id)

/-- The operation `removeLast()` as the specification words it: it fails with
`EmptyLogError` on an empty log, and otherwise returns the log without its
last turn. -/
def specRemoveLast (log : List Message) : Except String (List Message) :=
  if log = [] then Except.error "EmptyLogError" else Except.ok log.dropLast

/-- The assistant turn of lines 857-860 with the content `content`. -/
def assistantTurn (clock : Int) (content : JSString) : Message :=
  { id := assistantMessageIdOf clock, role := lit "assistant", content := content,
    error := false }

/-- The value thrown at a pending `fetch` or `reader.read()` when `abort()` is
called on the controller. -/
def abortError : JSError :=
  { name := lit "AbortError", message := lit "The user aborted a request." }

/-- A response whose only chunk, `The doc`, stays in the buffer (it is short
and has no break), and whose next read rejects with `AbortError`. -/
def bufferedThenAborted : FetchOutcome :=
  FetchOutcome.response 200 1001 [(bytesOf "The doc", 1040)] (StreamEnd.rejected abortError)

/-- A render whose log already holds a turn with the id `assistant-1001`. -/
def collidingRender : Render :=
  { messageState := [assistantTurn 1000 (lit "An earlier answer.")],
    input := [], isSending := false, selectedPdf := lit "doc-1", documentsLength := 1 }

/-- The render after a first call, made at the welcome render with the clock
at 1000, whose request was rejected. -/
def renderAfterFailure : Render :=
  { welcomeRender [] with
    messageState := finalLog (welcomeRender []) (SendArg.text (lit "Summarize"))
      (envWith (FetchOutcome.rejected (JSError.ofMessage (lit "Failed to fetch")))) }

/-! ## Interleaving of calls

A call of `sendMessage` runs up to `await fetch(...)` at once; what follows
runs in pieces, one each time the call is resumed: when a read delivers a
chunk (lines 912-943), and at last when the stream ends or a promise rejects
(lines 900-910 and 946-979). Between two pieces other handlers may run. -/

/-- The function `stopGeneration` (lines 767-775), given the value of
`abortControllerRef.current`. -/
def stopGeneration (abortController : Option Nat) : List Effect :=
  (match abortController with
   | some controller => [Effect.abort controller, Effect.setAbortController none]
   | none => [])
  ++ [Effect.setIsSending false, Effect.setStreamingMessageId none,
      Effect.addToast (lit "Generation stopped") (lit "info")]

/-- The `finally` block (lines 976-979). -/
def finallyBlock : List Effect :=
  [Effect.setIsSending false, Effect.setStreamingMessageId none]

/-- The effects of lines 844-875, which an accepted call makes before it first
waits. -/
def startOfSend (r : Render) (messageContent : JSString) (env : SendEnv) : List Effect :=
  [Effect.setInput [],
   Effect.setIsSending true,
   Effect.dispatch (Action.addMessage (userTurn env.userClock messageContent)),
   Effect.dispatch (Action.addMessage (assistantTurn env.assistantClock [])),
   Effect.setStreamingMessageId (some (assistantMessageIdOf env.assistantClock)),
   Effect.setAbortController (some env.controller),
   Effect.fetchAsk messageContent r.selectedPdf]

/-- The actions of the loop, one list for each read that delivers bytes. -/
def readLoopSegments (assistantMessageId : JSString) :
    LoopState → List (List Nat × Int) → List (List Action)
  | _, [] => []
  | s, (value, now) :: reads =>
    (onValue assistantMessageId s value now).2
      :: readLoopSegments assistantMessageId (onValue assistantMessageId s value now).1 reads

/-- The reads of a response that the loop goes through: those of an ok
response. -/
def loopReads : FetchOutcome → Option (Int × List (List Nat × Int))
  | .rejected _ => none
  | .response status start reads _ => if responseOk status then some (start, reads) else none

/-- The actions of the `try` once the loop is left at `done` (lines 900-910
and 946-950); none when a value is thrown instead. -/
def endActions (assistantMessageId : JSString) : FetchOutcome → List Action
  | .response status start reads .done =>
    if responseOk status then
      (onDone assistantMessageId
        (readLoop assistantMessageId (LoopState.start start) reads).1).2
    else []
  | _ => []

/-- What an accepted call does after `fetch` was called, one list of effects
for each time it is resumed: the dispatches of each read, and at last the
dispatches at `done`, the `catch` block if a value was thrown, and the
`finally` block. -/
def laterSegments (r : Render) (env : SendEnv) : List (List Effect) :=
  let id := assistantMessageIdOf env.assistantClock
  (match loopReads env.fetched with
    | some (start, reads) =>
      (readLoopSegments id (LoopState.start start) reads).map
        (fun actions => actions.map Effect.dispatch)
    | none => [])
  ++ [(endActions id env.fetched).map Effect.dispatch
      ++ (match (tryBlock id env.fetched).2 with
          | some error => catchBlock r id env.errorClock error
          | none => [])
      ++ finallyBlock]

/-- A call of `sendMessage` that has not yet run its `finally`: its
`AbortController`, what it will do when it is next resumed after `abort()`
(the `catch` for `AbortError`, then the `finally`), and what it will do
otherwise, one list of effects for each time it is resumed. -/
structure Invocation where
  controller : Nat
  whenAborted : List Effect
  segments : List (List Effect)
  deriving DecidableEq, Repr

/-- The component with the calls of `sendMessage` in flight. -/
structure World where
  app : AppState
  selectedPdf : JSString
  documentsLength : Nat
  running : List Invocation
  deriving DecidableEq, Repr

/-- The render of the current state, which a handler called now closes
over. -/
def World.render (w : World) : Render :=
  { messageState := w.app.messageState, input := w.app.input, isSending := w.app.isSending,
    selectedPdf := w.selectedPdf, documentsLength := w.documentsLength }

/-- What can happen next: `sendMessage` is called, `stopGeneration` is
called, or the call in flight at position `i` is resumed (a chunk arrives, or
its stream terminates). -/
inductive Event where
  | send (content : SendArg) (env : SendEnv)
  | stop
  | resume (i : Nat)
  deriving DecidableEq, Repr

/-- The question of a call that passes the guards of lines 838-842. -/
def acceptedQuestion (r : Render) (content : SendArg) : Option JSString :=
  match messageContentOf content r.input with
  | none => none
  | some messageContent =>
    if trim messageContent = [] ∨ r.isSending = true then none
    else if r.selectedPdf = [] ∧ r.documentsLength > 0 then none
    else some messageContent

/-- One event. -/
def step (w : World) : Event → World
  | .send content env =>
    match acceptedQuestion w.render content with
    | some q =>
      { w with
        app := applyEffects w.app (startOfSend w.render q env),
        running := w.running ++
          [{ controller := env.controller,
             whenAborted :=
               catchBlock w.render (assistantMessageIdOf env.assistantClock) env.errorClock
                 abortError ++ finallyBlock,
             segments := laterSegments w.render env }] }
    | none => { w with app := applyEffects w.app (sendMessage w.render content env) }
  | .stop =>
    { w with
      app := applyEffects w.app (stopGeneration w.app.abortController),
      running := w.running.map (fun inv =>
        if w.app.abortController = some inv.controller then
          { inv with segments := [inv.whenAborted] }
        else inv) }
  | .resume i =>
    match w.running[i]? with
    | none => w
    | some inv =>
      match inv.segments with
      | [] => { w with running := w.running.eraseIdx i }
      | segment :: rest =>
        { w with
          app := applyEffects w.app segment,
          running :=
            if rest = [] then w.running.eraseIdx i
            else w.running.set i { inv with segments := rest } }

/-- A sequence of events, from the state `w`. -/
def run (w : World) (events : List Event) : World := events.foldl step w

/-- The component when it is mounted with one document listed and selected:
the welcome turn, nothing in flight. -/
def World.initial : World :=
  { app := AppState.ofRender (welcomeRender []), selectedPdf := lit "doc-1",
    documentsLength := 1, running := [] }

/-- No event of the list is a call of `stopGeneration`. -/
def noStop (events : List Event) : Prop := ∀ e ∈ events, e ≠ Event.stop

/-- A segment leaves `isSending` as it is. -/
def Quiet (segment : List Effect) : Prop :=
  ∀ st : AppState, (applyEffects st segment).isSending = st.isSending

/-- The invariant of the runs without `stopGeneration`: no call is in flight,
or one is, `isSending` is true, and only the last piece of that call writes
`isSending`. -/
def OneSession (w : World) : Prop :=
  w.running = [] ∨
    ∃ inv, w.running = [inv] ∧ w.app.isSending = true ∧ inv.segments ≠ [] ∧
      ∀ segment ∈ inv.segments.dropLast, Quiet segment

/-- A first call whose stream flushes its first chunk and goes on. -/
def firstEnv : SendEnv :=
  { userClock := 1000, assistantClock := 1000, controller := 1,
    fetched := FetchOutcome.response 200 1001
      [(bytesOf "The document is ", 1040), (bytesOf "about cats.\n", 1080)] StreamEnd.done,
    errorClock := 2000 }

/-- A second call, made two seconds after the first. -/
def secondEnv : SendEnv :=
  { userClock := 3000, assistantClock := 3000, controller := 2,
    fetched := FetchOutcome.response 200 3001 [(bytesOf "Again.", 3040)] StreamEnd.done,
    errorClock := 4000 }

/-- No session is active: no abort handle is held, `isSending` is false and
`streamingMessageId` is null. -/
def NoSession (st : AppState) : Prop :=
  st.abortController = none ∧ st.isSending = false ∧ st.streamingMessageId = none

/-- The error thrown at lines 877-882 for a response that is not ok. -/
def notOkError (status : Nat) : JSError :=
  JSError.ofMessage
    (if status = 404 then lit "Document not found. Please reselect."
     else lit "Failed to get response")

/-- The reads of the scenario of the specification: the chunks `The doc`,
`ument is ` and `about cats.` with a newline, arriving at the times `t1`,
`t2` and `t3`. -/
def catsReads (t1 t2 t3 : Int) : List (List Nat × Int) :=
  [(bytesOf "The doc", t1), (bytesOf "ument is ", t2), (bytesOf "about cats.\n", t3)]

/-! ## `handleFileUpload` (lines 781-834) -/

/-- The fields of a `File` that `handleFileUpload` reads. -/
structure UploadFile where
  name : JSString
  size : Nat
  type : JSString
  deriving DecidableEq, Repr

/-- How the request `axios.post(.../upload)` goes: the percentages its
progress events report, and then a rejection, or a response carrying the
`document_id`. -/
inductive UploadOutcome where
  | failed (progress : List Nat)
  | succeeded (progress : List Nat) (documentId : JSString)
  deriving DecidableEq, Repr

/-- The state changes and calls that `handleFileUpload` makes, in order. -/
inductive UploadEffect where
  | setUploadError (value : Option JSString)
  | addToast (message : JSString) (type : JSString)
  | setUploading (value : Bool)
  | setUploadProgress (value : Nat)
  | postUpload (file : UploadFile)
  | fetchDocuments
  | setSelectedPdf (value : JSString)
  | clearFileInput
  | setIsMobileMenuOpen (value : Bool)
  deriving DecidableEq, Repr

/-- The method `String.prototype.endsWith`. -/
def endsWith (s suffix : JSString) : Bool := suffix.isSuffixOf s

/-- The function `handleFileUpload` (lines 781-834): the effects of one call
for the file given (`none` when no file was chosen); `hasFileInput` tells
whether `fileInputRef.current` is set. -/
def handleFileUpload (file : Option UploadFile) (outcome : UploadOutcome)
    (hasFileInput : Bool) : List UploadEffect :=
  match file with
  | none => []
  | some file =>
    if !endsWith file.name (lit ".pdf") then
      [UploadEffect.setUploadError none,
       UploadEffect.setUploadError (some (lit "Only PDF files are allowed")),
       UploadEffect.addToast (lit "Only PDF files are allowed") (lit "error")]
    else if file.size > 50 * 1024 * 1024 then
      [UploadEffect.setUploadError none,
       UploadEffect.setUploadError (some (lit "File too large (max 50MB)")),
       UploadEffect.addToast (lit "File too large (max 50MB)") (lit "error")]
    else
      [UploadEffect.setUploadError none,
       UploadEffect.setUploading true,
       UploadEffect.setUploadProgress 0,
       UploadEffect.postUpload file]
      ++ (match outcome with
          | .succeeded progress documentId =>
            progress.map UploadEffect.setUploadProgress ++
            [UploadEffect.fetchDocuments,
             UploadEffect.setSelectedPdf documentId,
             UploadEffect.setUploadError none,
             UploadEffect.addToast (lit "\"" ++ file.name ++ lit "\" uploaded successfully")
               (lit "success")]
            ++ (if hasFileInput then [UploadEffect.clearFileInput] else [])
            ++ [UploadEffect.setIsMobileMenuOpen false]
          | .failed progress =>
            progress.map UploadEffect.setUploadProgress ++
            [UploadEffect.setUploadError (some (lit "Upload failed. Please try again.")),
             UploadEffect.addToast (lit "Upload failed. Please try again.") (lit "error")])
      ++ [UploadEffect.setUploading false, UploadEffect.setUploadProgress 0]

/-- The call rejects the file: it sets `uploadError` to a message and sends no
upload request. -/
def uploadRejected (effects : List UploadEffect) : Prop :=
  (∃ message, UploadEffect.setUploadError (some message) ∈ effects) ∧
    ∀ file, UploadEffect.postUpload file ∉ effects

/-! ## Lemmas on the read loop -/

theorem sendMessage_of_accepted {r : Render} {content : SendArg} {q : JSString}
    (h : Accepted r content q) (env : SendEnv) :
    sendMessage r content env = acceptedSend r q env := by
  obtain ⟨h1, h2, h3, h4⟩ := h
  simp [sendMessage, h1, h2, h3, h4]

theorem dispatched_append (a b : List Effect) :
    dispatched (a ++ b) = dispatched a ++ dispatched b := by
  induction a with
  | nil => rfl
  | cons e a ih => cases e <;> simp [dispatched, ih]

theorem dispatched_map_dispatch (acts : List Action) :
    dispatched (acts.map Effect.dispatch) = acts := by
  induction acts with
  | nil => rfl
  | cons a acts ih => simp [dispatched, ih]

theorem updateContents_append (id : JSString) (a b : List Action) :
    updateContents id (a ++ b) = updateContents id a ++ updateContents id b := by
  induction a with
  | nil => rfl
  | cons e a ih =>
    cases e <;> simp [updateContents, ih]
    split <;> simp

theorem updateContents_map (id : JSString) (cs : List JSString) :
    updateContents id (cs.map (Action.updateMessageById id)) = cs := by
  induction cs with
  | nil => rfl
  | cons c cs ih => simp [updateContents, ih]

theorem hasNaturalBreak_nil (inWord : Bool) : hasNaturalBreak [] inWord = false := by
  simp [hasNaturalBreak, testSentenceBreak, sentenceBreakFrom, testEndsInSpace]

theorem shouldFlush_ne_nil {buffer : JSString} {inWord : Bool} {t : Int}
    (h : shouldFlush buffer inWord t = true) : buffer ≠ [] := by
  rintro rfl
  simp [shouldFlush, hasNaturalBreak_nil] at h

theorem Grows.trans {a b c : JSString} (h1 : Grows a b) (h2 : Grows b c) : Grows a c :=
  ⟨h1.1.trans h2.1, lt_trans h1.2 h2.2⟩

/-- What the iterations of the loop do: no text is lost, the decoder has read
every chunk, and the contents dispatched grow strictly from the text flushed
before and end at the text flushed after. -/
theorem readLoop_spec (id : JSString) :
    ∀ (reads : List (List Nat × Int)) (s : LoopState),
      (readLoop id s reads).1.fullText ++ (readLoop id s reads).1.buffer
          = s.fullText ++ s.buffer ++ (decodeChunks s.decoder (reads.map Prod.fst)).flatten ∧
      ∃ cs : List JSString,
        (readLoop id s reads).2 = cs.map (Action.updateMessageById id) ∧
        List.Chain Grows s.fullText cs ∧
        (s.fullText :: cs).getLast? = some (readLoop id s reads).1.fullText := by
  intro reads
  induction reads with
  | nil => intro s; exact ⟨by simp [readLoop, decodeChunks], [], by simp [readLoop]⟩
  | cons rd reads ih =>
    intro s
    obtain ⟨value, now⟩ := rd
    by_cases hf : shouldFlush (s.buffer ++ (decodeStream s.decoder value).2) s.inWord
        (now - s.lastUpdateTime) = true
    · have hs : onValue id s value now =
          ({ s with decoder := (decodeStream s.decoder value).1,
                    fullText := s.fullText ++ (s.buffer ++ (decodeStream s.decoder value).2),
                    buffer := [], lastUpdateTime := now, inWord := false },
           [Action.updateMessageById id
              (s.fullText ++ (s.buffer ++ (decodeStream s.decoder value).2))]) := by
        simp [onValue, onChunk, hf]
      obtain ⟨h1, cs, h2, h3, h4⟩ := ih (onValue id s value now).1
      have hne := shouldFlush_ne_nil hf
      simp only [readLoop, List.map_cons, decodeChunks, List.flatten_cons]
      rw [hs] at h1 h2 h3 h4 ⊢
      simp only at h1 h2 h3 h4 ⊢
      refine ⟨?_, (s.fullText ++ (s.buffer ++ (decodeStream s.decoder value).2)) :: cs, ?_, ?_, ?_⟩
      · rw [h1]; simp
      · rw [h2]; simp
      · refine List.Chain.cons ⟨List.prefix_append _ _, ?_⟩ h3
        have : 0 < (s.buffer ++ (decodeStream s.decoder value).2).length :=
          List.length_pos.mpr hne
        simp only [List.length_append] at this ⊢
        omega
      · rw [List.getLast?_cons_cons]
        exact h4
    · have hs : onValue id s value now =
          ({ s with decoder := (decodeStream s.decoder value).1,
                    buffer := s.buffer ++ (decodeStream s.decoder value).2,
                    inWord := decide ((s.buffer ++ (decodeStream s.decoder value).2).length > 0)
                      && !testEndsInSpace (s.buffer ++ (decodeStream s.decoder value).2) },
           []) := by
        simp [onValue, onChunk, hf]
      obtain ⟨h1, cs, h2, h3, h4⟩ := ih (onValue id s value now).1
      simp only [readLoop, List.map_cons, decodeChunks, List.flatten_cons]
      rw [hs] at h1 h2 h3 h4 ⊢
      simp only at h1 h2 h3 h4 ⊢
      refine ⟨?_, cs, ?_, h3, h4⟩
      · rw [h1]; simp
      · rw [h2]; simp

/-- The actions of an accepted call: the two appended turns, what the `try`
dispatches, then what the `catch` dispatches. -/
theorem dispatched_acceptedSend (r : Render) (q : JSString) (env : SendEnv) :
    dispatched (acceptedSend r q env) =
      [Action.addMessage { id := userMessageIdOf env.userClock, role := lit "user",
                           content := q, error := false },
       Action.addMessage { id := assistantMessageIdOf env.assistantClock,
                           role := lit "assistant", content := [], error := false }]
      ++ (tryBlock (assistantMessageIdOf env.assistantClock) env.fetched).1
      ++ dispatched (match (tryBlock (assistantMessageIdOf env.assistantClock) env.fetched).2 with
          | some error =>
            catchBlock r (assistantMessageIdOf env.assistantClock) env.errorClock error
          | none => []) := by
  simp [acceptedSend, dispatched_append, dispatched, dispatched_map_dispatch]

/-- The contents dispatched for the assistant turn by a call whose stream ends
normally: a strictly growing run `pre`, then once more the whole text. -/
theorem contents_of_done {r : Render} {content : SendArg} {q : JSString} {env : SendEnv}
    {status : Nat} {start : Int} {reads : List (List Nat × Int)}
    (h : Accepted r content q)
    (hf : env.fetched = FetchOutcome.response status start reads StreamEnd.done)
    (hok : responseOk status = true) :
    ∃ pre : List JSString,
      updateContents (assistantMessageIdOf env.assistantClock)
          (dispatched (sendMessage r content env))
        = pre ++ [(decodeChunks Utf8State.init (reads.map Prod.fst)).flatten] ∧
      List.Chain' Grows pre ∧
      ∀ x ∈ pre.getLast?, x = (decodeChunks Utf8State.init (reads.map Prod.fst)).flatten := by
  obtain ⟨h1, cs, h2, h3, h4⟩ :=
    readLoop_spec (assistantMessageIdOf env.assistantClock) reads (LoopState.start start)
  have hs1 : (LoopState.start start).fullText = [] := rfl
  have hs2 : (LoopState.start start).buffer = [] := rfl
  have hs3 : (LoopState.start start).decoder = Utf8State.init := rfl
  rw [hs1, hs2, hs3, List.nil_append, List.nil_append] at h1
  rw [hs1] at h3 h4
  have hc' : List.Chain' Grows (([] : JSString) :: cs) := h3
  have hc : List.Chain' Grows cs := hc'.tail
  rw [sendMessage_of_accepted h, dispatched_acceptedSend]
  simp only [hf, tryBlock, hok, Bool.not_true, Bool.false_eq_true, if_false]
  generalize readLoop (assistantMessageIdOf env.assistantClock) (LoopState.start start) reads
    = L at h1 h2 h4 ⊢
  generalize (decodeChunks Utf8State.init (reads.map Prod.fst)).flatten = F at h1 ⊢
  have hlast : ∀ x ∈ cs.getLast?, x = L.1.fullText := by
    intro x hx
    cases cs with
    | nil => simp at hx
    | cons c cs =>
      rw [List.getLast?_cons_cons] at h4
      rw [h4] at hx
      simpa using hx.symm
  by_cases hb : L.1.buffer = []
  · rw [hb, List.append_nil] at h1
    refine ⟨cs, ?_, hc, ?_⟩
    · simp [onDone, hb, updateContents, updateContents_append, updateContents_map,
        dispatched, h1, h2]
    · intro x hx
      rw [← h1]; exact hlast x hx
  · refine ⟨cs ++ [F], ?_, ?_, ?_⟩
    · simp [onDone, hb, updateContents, updateContents_append, updateContents_map,
        dispatched, h1, h2]
    · refine hc.append (List.chain'_singleton _) ?_
      intro x hx y hy
      simp only [List.head?_cons, Option.mem_def, Option.some.injEq] at hy
      subst hy
      have hx' := hlast x hx
      have hpos := List.length_pos.mpr hb
      refine ⟨?_, ?_⟩
      · rw [← h1, hx']; exact List.prefix_append _ _
      · rw [← h1, List.length_append, hx']; omega
    · simp

theorem prefix_of_last_of_chain :
    ∀ l : List JSString, List.Chain' Grows l → ∀ x ∈ l.getLast?, ∀ c ∈ l, c <+: x := by
  intro l
  induction l with
  | nil => intro _ x hx; simp at hx
  | cons a l ih =>
    intro hc x hx c hcm
    cases l with
    | nil =>
      simp only [List.getLast?_singleton, Option.mem_def, Option.some.injEq] at hx
      simp only [List.mem_singleton] at hcm
      subst hx; subst hcm; exact List.prefix_refl _
    | cons b l =>
      rw [List.getLast?_cons_cons] at hx
      rw [List.chain'_cons] at hc
      rcases List.mem_cons.mp hcm with rfl | hcm'
      · exact hc.1.1.trans (ih hc.2 x hx b (List.mem_cons_self _ _))
      · exact ih hc.2 x hx c hcm'

/-! ## Completeness of the streamed text -/

/-- C1: when the stream ends normally, the last content dispatched for the
assistant turn is the concatenation of all decoded chunks in order, and two
runs over the same chunks with different timestamps end with the same
content. -/
theorem final_content_is_concatenation (r : Render) (content : SendArg) (q : JSString)
    (env env' : SendEnv) (status status' : Nat) (start start' : Int)
    (reads reads' : List (List Nat × Int))
    (h : Accepted r content q)
    (hf : env.fetched = FetchOutcome.response status start reads StreamEnd.done)
    (hok : responseOk status = true)
    (hf' : env'.fetched = FetchOutcome.response status' start' reads' StreamEnd.done)
    (hok' : responseOk status' = true)
    (hsame : reads'.map Prod.fst = reads.map Prod.fst) :
    (updateContents (assistantMessageIdOf env.assistantClock)
        (dispatched (sendMessage r content env))).getLast?
      = some (decodeChunks Utf8State.init (reads.map Prod.fst)).flatten ∧
    (updateContents (assistantMessageIdOf env'.assistantClock)
        (dispatched (sendMessage r content env'))).getLast?
      = (updateContents (assistantMessageIdOf env.assistantClock)
          (dispatched (sendMessage r content env))).getLast? := by
  obtain ⟨pre, h1, -, -⟩ := contents_of_done h hf hok
  obtain ⟨pre', h1', -, -⟩ := contents_of_done h hf' hok'
  rw [h1, h1', hsame]
  simp

/-- The chunks `The doc`, `ument is `, `about cats.` with a newline, at two different timings, end with the whole sentence. -/
theorem final_content_is_concatenation_witness :
    Accepted (welcomeRender []) (SendArg.text (lit "Summarize")) (lit "Summarize") ∧
    (updateContents (assistantMessageIdOf 1000)
        (dispatched (sendMessage (welcomeRender []) (SendArg.text (lit "Summarize"))
          (envWith (FetchOutcome.response 200 1001
            [(bytesOf "The doc", 1010), (bytesOf "ument is ", 1050),
             (bytesOf "about cats.\n", 1100)] StreamEnd.done))))).getLast?
      = some (lit "The document is about cats.\n") :=
  ⟨by decide,
   (final_content_is_concatenation (welcomeRender []) (SendArg.text (lit "Summarize"))
      (lit "Summarize")
      (envWith (FetchOutcome.response 200 1001
        [(bytesOf "The doc", 1010), (bytesOf "ument is ", 1050),
         (bytesOf "about cats.\n", 1100)] StreamEnd.done))
      (envWith (FetchOutcome.response 200 1001
        [(bytesOf "The doc", 1002), (bytesOf "ument is ", 1003),
         (bytesOf "about cats.\n", 1004)] StreamEnd.done))
      200 200 1001 1001 _ _ (by decide) rfl (by decide) rfl (by decide) (by decide)).1⟩

/-! ## Growth of the dispatched contents -/

/-- The contents dispatched for the assistant turn by a `try` whose stream is
read and then rejects: a strictly growing run. -/
theorem contents_of_rejected (id : JSString) (status : Nat) (start : Int)
    (reads : List (List Nat × Int)) (error : JSError) (hok : responseOk status = true) :
    List.Chain' Grows (updateContents id
      (tryBlock id (FetchOutcome.response status start reads (StreamEnd.rejected error))).1) := by
  obtain ⟨-, cs, h2, h3, -⟩ := readLoop_spec id reads (LoopState.start start)
  have hc' : List.Chain' Grows ((LoopState.start start).fullText :: cs) := h3
  simp only [tryBlock, hok, Bool.not_true, Bool.false_eq_true, if_false, h2, updateContents_map]
  exact hc'.tail

/-- C3, counterexample: for the single chunk `Hi.` arriving 39 ms after the
loop started, the contents dispatched for the assistant turn are `Hi.` (the
flush in the loop) and `Hi.` again (the dispatch after the loop): their
lengths are not strictly increasing. -/
theorem strict_growth_counterexample :
    ¬ List.Chain' (fun a b : JSString => a.length < b.length)
      (updateContents (assistantMessageIdOf 1000)
        (dispatched (sendMessage (welcomeRender []) (SendArg.text (lit "Summarize"))
          (envWith (FetchOutcome.response 200 1001 [(bytesOf "Hi.", 1040)]
            StreamEnd.done))))) := by
  have hc : updateContents (assistantMessageIdOf 1000)
      (dispatched (sendMessage (welcomeRender []) (SendArg.text (lit "Summarize"))
        (envWith (FetchOutcome.response 200 1001 [(bytesOf "Hi.", 1040)]
          StreamEnd.done)))) = [lit "Hi.", lit "Hi."] := by decide
  rw [hc, List.chain'_pair]
  decide

/-- C3, amended: when the stream ends normally, the contents dispatched for
the assistant turn, the last one apart, have strictly increasing length, and
the last dispatch (the one after the loop) repeats the content dispatched
just before it when there is one; when the read rejects, the contents
dispatched by the loop have strictly increasing length. -/
theorem growth_strict_before_final_dispatch (r : Render) (content : SendArg) (q : JSString)
    (env : SendEnv) (status : Nat) (start : Int) (reads : List (List Nat × Int))
    (h : Accepted r content q)
    (hf : env.fetched = FetchOutcome.response status start reads StreamEnd.done)
    (hok : responseOk status = true) :
    List.Chain' (fun a b : JSString => a.length < b.length)
      (updateContents (assistantMessageIdOf env.assistantClock)
        (dispatched (sendMessage r content env))).dropLast ∧
    (∀ x ∈ (updateContents (assistantMessageIdOf env.assistantClock)
        (dispatched (sendMessage r content env))).dropLast.getLast?,
      (updateContents (assistantMessageIdOf env.assistantClock)
        (dispatched (sendMessage r content env))).getLast? = some x) ∧
    ∀ error : JSError,
      List.Chain' (fun a b : JSString => a.length < b.length)
        (updateContents (assistantMessageIdOf env.assistantClock)
          (tryBlock (assistantMessageIdOf env.assistantClock)
            (FetchOutcome.response status start reads (StreamEnd.rejected error))).1) := by
  obtain ⟨pre, h1, h2, h3⟩ := contents_of_done h hf hok
  rw [h1]
  refine ⟨?_, ?_, ?_⟩
  · rw [List.dropLast_concat]
    exact h2.imp (fun _ _ hg => hg.2)
  · rw [List.dropLast_concat]
    intro x hx
    simp [h3 x hx]
  · intro error
    exact (contents_of_rejected _ status start reads error hok).imp (fun _ _ hg => hg.2)

/-- An accepted call on three chunks: the contents before the last dispatch grow strictly. -/
theorem growth_strict_before_final_dispatch_witness :
    Accepted (welcomeRender []) (SendArg.text (lit "Summarize")) (lit "Summarize") ∧
    List.Chain' (fun a b : JSString => a.length < b.length)
      (updateContents (assistantMessageIdOf 1000)
        (dispatched (sendMessage (welcomeRender []) (SendArg.text (lit "Summarize"))
          (envWith (FetchOutcome.response 200 1001
            [(bytesOf "The doc", 1040), (bytesOf "ument is ", 1080),
             (bytesOf "about cats.\n", 1120)] StreamEnd.done))))).dropLast :=
  ⟨by decide,
   (growth_strict_before_final_dispatch (welcomeRender []) (SendArg.text (lit "Summarize"))
      (lit "Summarize")
      (envWith (FetchOutcome.response 200 1001
        [(bytesOf "The doc", 1040), (bytesOf "ument is ", 1080),
         (bytesOf "about cats.\n", 1120)] StreamEnd.done))
      200 1001 _ (by decide) rfl (by decide)).1⟩

/-- C4: with no cancellation and no error, each content dispatched for the
assistant turn is a prefix of the next one and of the final one, so the
dispatched length never decreases. -/
theorem contents_prefix_consistent (r : Render) (content : SendArg) (q : JSString)
    (env : SendEnv) (status : Nat) (start : Int) (reads : List (List Nat × Int))
    (h : Accepted r content q)
    (hf : env.fetched = FetchOutcome.response status start reads StreamEnd.done)
    (hok : responseOk status = true) :
    List.Chain' (fun a b : JSString => a <+: b)
      (updateContents (assistantMessageIdOf env.assistantClock)
        (dispatched (sendMessage r content env))) ∧
    (∀ c ∈ updateContents (assistantMessageIdOf env.assistantClock)
        (dispatched (sendMessage r content env)),
      ∀ f ∈ (updateContents (assistantMessageIdOf env.assistantClock)
        (dispatched (sendMessage r content env))).getLast?, c <+: f) ∧
    List.Chain' (fun a b : JSString => a.length ≤ b.length)
      (updateContents (assistantMessageIdOf env.assistantClock)
        (dispatched (sendMessage r content env))) := by
  obtain ⟨pre, h1, h2, h3⟩ := contents_of_done h hf hok
  rw [h1]
  have hchain : List.Chain' (fun a b : JSString => a <+: b)
      (pre ++ [(decodeChunks Utf8State.init (reads.map Prod.fst)).flatten]) := by
    refine (h2.imp (fun _ _ hg => hg.1)).append (List.chain'_singleton _) ?_
    intro x hx y hy
    simp only [List.head?_cons, Option.mem_def, Option.some.injEq] at hy
    subst hy
    rw [h3 x hx]
  refine ⟨hchain, ?_, hchain.imp (fun _ _ hp => hp.length_le)⟩
  intro c hc f hf'
  rw [List.getLast?_concat] at hf'
  simp only [Option.mem_def, Option.some.injEq] at hf'
  subst hf'
  rcases List.mem_append.mp hc with hc | hc
  · cases hl : pre.getLast? with
    | none => simp [List.getLast?_eq_none_iff.mp hl] at hc
    | some x =>
      have hx : x ∈ pre.getLast? := hl
      rw [← h3 x hx]
      exact prefix_of_last_of_chain pre h2 x hx c hc
  · simp only [List.mem_singleton] at hc
    rw [hc]

/-- An accepted call on three chunks: each content is a prefix of the next. -/
theorem contents_prefix_consistent_witness :
    Accepted (welcomeRender []) (SendArg.text (lit "Summarize")) (lit "Summarize") ∧
    List.Chain' (fun a b : JSString => a <+: b)
      (updateContents (assistantMessageIdOf 1000)
        (dispatched (sendMessage (welcomeRender []) (SendArg.text (lit "Summarize"))
          (envWith (FetchOutcome.response 200 1001
            [(bytesOf "The doc", 1031), (bytesOf "ument is ", 1061),
             (bytesOf "about cats.\n", 1091)] StreamEnd.done))))) :=
  ⟨by decide,
   (contents_prefix_consistent (welcomeRender []) (SendArg.text (lit "Summarize"))
      (lit "Summarize")
      (envWith (FetchOutcome.response 200 1001
        [(bytesOf "The doc", 1031), (bytesOf "ument is ", 1061),
         (bytesOf "about cats.\n", 1091)] StreamEnd.done))
      200 1001 _ (by decide) rfl (by decide)).1⟩

/-! ## End of stream, cancellation and errors -/

theorem applyEffects_messageState (effects : List Effect) :
    ∀ st : AppState, (applyEffects st effects).messageState
      = (dispatched effects).foldl messageReducer st.messageState := by
  induction effects with
  | nil => intro st; rfl
  | cons e effects ih =>
    intro st
    have := ih (applyEffect st e)
    unfold applyEffects at this ⊢
    rw [List.foldl_cons, this]
    cases e <;> simp [dispatched, applyEffect]

theorem foldl_updates_length (id : JSString) (cs : List JSString) :
    ∀ log : List Message,
      ((cs.map (Action.updateMessageById id)).foldl messageReducer log).length = log.length := by
  induction cs with
  | nil => intro log; rfl
  | cons c cs ih =>
    intro log
    rw [List.map_cons, List.foldl_cons, ih]
    simp [messageReducer]

/-- C10: at end-of-stream the residual buffer is appended unconditionally:
whatever the loop variables (buffer, `inWord`, time of the last flush), at
least one action is dispatched, every action dispatched carries the flushed
text followed by the whole buffer, and this is what the `try` of a response
that ends normally dispatches after the actions of the loop. -/
theorem end_of_stream_flushes_residual (id : JSString) (s : LoopState) :
    (onDone id s).2 ≠ [] ∧
    (∀ a ∈ (onDone id s).2, a = Action.updateMessageById id (s.fullText ++ s.buffer)) ∧
    (onDone id s).1.fullText = s.fullText ++ s.buffer ∧
    ∀ (status : Nat) (start : Int) (reads : List (List Nat × Int)),
      responseOk status = true →
      tryBlock id (FetchOutcome.response status start reads StreamEnd.done)
        = ((readLoop id (LoopState.start start) reads).2
            ++ (onDone id (readLoop id (LoopState.start start) reads).1).2, none) := by
  refine ⟨?_, ?_, ?_, ?_⟩
  · unfold onDone; split <;> simp
  · intro a ha
    unfold onDone at ha
    split at ha
    · simp only [List.mem_cons, List.mem_singleton, List.mem_nil_iff, or_false, or_self] at ha
      exact ha
    · rename_i hb
      have hb' : s.buffer = [] := by simpa using hb
      simp only [List.mem_singleton] at ha
      rw [ha, hb', List.append_nil]
  · unfold onDone
    split
    · rfl
    · rename_i hb
      have hb' : s.buffer = [] := by simpa using hb
      simp [hb']
  · intro status start reads hok
    simp [tryBlock, hok]

/-- A response with status 200 whose only chunk stays in the buffer until end-of-stream. -/
theorem end_of_stream_flushes_residual_witness :
    responseOk 200 = true ∧
    tryBlock (assistantMessageIdOf 1000)
        (FetchOutcome.response 200 1001 [(bytesOf "The doc", 1100)] StreamEnd.done)
      = ((readLoop (assistantMessageIdOf 1000) (LoopState.start 1001)
            [(bytesOf "The doc", 1100)]).2
          ++ (onDone (assistantMessageIdOf 1000)
              (readLoop (assistantMessageIdOf 1000) (LoopState.start 1001)
                [(bytesOf "The doc", 1100)]).1).2, none) :=
  ⟨by decide,
   (end_of_stream_flushes_residual (assistantMessageIdOf 1000) (LoopState.start 1001)).2.2.2
      200 1001 [(bytesOf "The doc", 1100)] (by decide)⟩

/-- C2, the code at a cancelled stream: the text `The document is ` has been
flushed into the assistant turn when the read rejects with `AbortError`; the
`catch` reads the turn's content from the log of the render the call closed
over, which does not hold the turn, so the final content is the marker alone
and not the flushed text followed by the marker. -/
theorem cancellation_drops_flushed_text :
    lit "The document is " ∈ updateContents (assistantMessageIdOf 1000)
      (dispatched (sendMessage (welcomeRender []) (SendArg.text (lit "Summarize"))
        (envWith (flushedThenRejected { name := lit "AbortError", message := [] })))) ∧
    contentOf (finalLog (welcomeRender []) (SendArg.text (lit "Summarize"))
        (envWith (flushedThenRejected { name := lit "AbortError", message := [] })))
      (assistantMessageIdOf 1000) = some stoppedMarker ∧
    stoppedMarker ≠ lit "The document is " ++ stoppedMarker := by
  decide

/-- C5: a call whose question (`content || input`) is empty or only white
space, or made while `isSending` is true, has no effect: nothing is dispatched
and the log, `isSending`, `streamingMessageId` and the abort handle stay as
they are. -/
theorem blank_or_busy_send_is_noop (r : Render) (content : SendArg) (env : SendEnv)
    (st : AppState)
    (h : (∃ q, messageContentOf content r.input = some q ∧ trim q = []) ∨ r.isSending = true) :
    sendMessage r content env = [] ∧
    dispatched (sendMessage r content env) = [] ∧
    (applyEffects st (sendMessage r content env)).messageState = st.messageState ∧
    (applyEffects st (sendMessage r content env)).isSending = st.isSending ∧
    (applyEffects st (sendMessage r content env)).streamingMessageId = st.streamingMessageId ∧
    (applyEffects st (sendMessage r content env)).abortController = st.abortController := by
  have h0 : sendMessage r content env = [] := by
    unfold sendMessage
    rcases h with ⟨q, hq, ht⟩ | hs
    · simp [hq, ht]
    · cases hm : messageContentOf content r.input with
      | none => rfl
      | some q => simp [hs]
  simp [h0, dispatched, applyEffects]

/-- A call whose argument is only white space does nothing, though the input field is not blank. -/
theorem blank_or_busy_send_is_noop_witness :
    ((∃ q, messageContentOf (SendArg.text (lit " \t\n")) (welcomeRender (lit "hello")).input
        = some q ∧ trim q = []) ∨ (welcomeRender (lit "hello")).isSending = true) ∧
    sendMessage (welcomeRender (lit "hello")) (SendArg.text (lit " \t\n"))
      (envWith (FetchOutcome.response 200 1001 [] StreamEnd.done)) = [] :=
  ⟨Or.inl ⟨lit " \t\n", by decide, by decide⟩,
   (blank_or_busy_send_is_noop (welcomeRender (lit "hello")) (SendArg.text (lit " \t\n"))
      (envWith (FetchOutcome.response 200 1001 [] StreamEnd.done))
      (AppState.ofRender (welcomeRender (lit "hello")))
      (Or.inl ⟨lit " \t\n", by decide, by decide⟩)).1⟩

theorem foldl_updates_map (id : JSString) (cs : List JSString) :
    ∀ log : List Message,
      (cs.map (Action.updateMessageById id)).foldl messageReducer log
        = log.map (fun m =>
            if m.id = id then { m with content := cs.getLast?.getD m.content } else m) := by
  induction cs with
  | nil =>
    intro log
    simp only [List.map_nil, List.foldl_nil, List.getLast?_nil, Option.getD_none]
    conv_lhs => rw [← List.map_id log]
    apply List.map_congr_left
    intro m _
    split <;> rfl
  | cons c cs ih =>
    intro log
    rw [List.map_cons, List.foldl_cons, ih]
    simp only [messageReducer, List.map_map]
    apply List.map_congr_left
    intro m _
    by_cases hid : m.id = id
    · simp [hid, List.getLast?_cons]
    · simp [hid]

theorem userMessageIdOf_ne_assistantMessageIdOf (c c' : Int) :
    userMessageIdOf c ≠ assistantMessageIdOf c' := by
  intro h
  have h' := congrArg List.head? h
  revert h'
  show ¬ ((117 :: lit "ser-" ++ lit (toString c)).head?
    = (97 :: lit "ssistant-" ++ lit (toString (c' + 1))).head?)
  simp

/-- The log after an accepted call at whose start no turn carries the new
assistant id: the two turns are appended, the assistant turn holds the last
content dispatched by the `try`, then the `catch` acts. -/
theorem log_after_try (log : List Message) (u a : Message) (cs : List JSString)
    (rest : List Action) (hu : u.id ≠ a.id) (hfresh : ∀ m ∈ log, m.id ≠ a.id) :
    ([Action.addMessage u, Action.addMessage a]
        ++ cs.map (Action.updateMessageById a.id) ++ rest).foldl messageReducer log
      = rest.foldl messageReducer
          (log ++ [u, { a with content := cs.getLast?.getD a.content }]) := by
  rw [List.foldl_append, List.foldl_append]
  congr 1
  simp only [List.foldl_cons, List.foldl_nil, messageReducer, List.append_assoc,
    List.singleton_append]
  rw [foldl_updates_map, List.map_append]
  congr 1
  · conv_rhs => rw [← List.map_id log]
    apply List.map_congr_left
    intro m hm
    simp [hfresh m hm]
  · simp [hu]

theorem dispatched_catchBlock_error (r : Render) (id : JSString) (clock : Int) (e : JSError)
    (hne : e.name ≠ lit "AbortError") :
    dispatched (catchBlock r id clock e)
      = [Action.removeLastMessage, Action.addMessage (errorTurn clock e)] := by
  simp [catchBlock, hne, dispatched, errorTurn]

/-- C6, counterexample: the request rejects with a `TypeError` whose message
is empty; the error turn then carries the fallback text of line 970, not the
mark followed by the (empty) message. -/
theorem pre_stream_failure_counterexample :
    (finalLog (welcomeRender []) (SendArg.text (lit "Summarize"))
        (envWith (FetchOutcome.rejected { name := lit "TypeError", message := [] }))).getLast?
      = some (errorTurn 2000 { name := lit "TypeError", message := [] }) ∧
    (errorTurn 2000 { name := lit "TypeError", message := [] }).content
      = lit "❌ Sorry, an error occurred. Please try again." ∧
    (errorTurn 2000 { name := lit "TypeError", message := [] }).content
      ≠ lit "❌ " ++ (JSError.message { name := lit "TypeError", message := [] }) := by
  decide

/-- C6, amended: when an accepted call fails before any text is flushed (the
request rejects with a non-abort error, or the response is not ok), the final
log is the log before the call followed by the user turn and one new turn with
`error = true`; it is as long as the log right after the two turns were
appended; the content of the new turn is the mark followed by the error's
message when that message is not empty, and the mark followed by the fallback
text when it is empty. -/
theorem pre_stream_failure_replaces_turn (r : Render) (content : SendArg) (q : JSString)
    (env : SendEnv) (st : AppState) (e : JSError)
    (h : Accepted r content q)
    (hpre : (env.fetched = FetchOutcome.rejected e ∧ e.name ≠ lit "AbortError") ∨
      (∃ status start reads ending,
        env.fetched = FetchOutcome.response status start reads ending ∧
        responseOk status = false ∧
        e = JSError.ofMessage (if status = 404 then lit "Document not found. Please reselect."
              else lit "Failed to get response"))) :
    (applyEffects st (sendMessage r content env)).messageState
      = st.messageState ++ [userTurn env.userClock q, errorTurn env.errorClock e] ∧
    (applyEffects st (sendMessage r content env)).messageState.length
      = (st.messageState ++ [userTurn env.userClock q,
          { id := assistantMessageIdOf env.assistantClock, role := lit "assistant",
            content := [], error := false }]).length ∧
    (errorTurn env.errorClock e).error = true ∧
    (errorTurn env.errorClock e).role = lit "assistant" ∧
    (e.message ≠ [] → (errorTurn env.errorClock e).content = lit "❌ " ++ e.message) ∧
    (e.message = [] → (errorTurn env.errorClock e).content
      = lit "❌ " ++ lit "Sorry, an error occurred. Please try again.") := by
  have hlog : (applyEffects st (sendMessage r content env)).messageState
      = st.messageState ++ [userTurn env.userClock q, errorTurn env.errorClock e] := by
    rw [sendMessage_of_accepted h, applyEffects_messageState, dispatched_acceptedSend]
    rcases hpre with ⟨hf, hne⟩ | ⟨status, start, reads, ending, hf, hok, he⟩
    · simp only [hf, tryBlock, dispatched_catchBlock_error _ _ _ _ hne]
      simp [messageReducer, userTurn, List.dropLast_append_cons]
    · have hname : e.name = lit "Error" := by rw [he]; rfl
      have hne : e.name ≠ lit "AbortError" := by rw [hname]; decide
      have ht : tryBlock (assistantMessageIdOf env.assistantClock)
          (FetchOutcome.response status start reads ending) = ([], some e) := by
        simp only [tryBlock, hok, Bool.not_false, if_true]
        split <;> simp_all
      simp only [hf, ht, dispatched_catchBlock_error _ _ _ _ hne]
      simp [messageReducer, userTurn, List.dropLast_append_cons]
  refine ⟨hlog, ?_, rfl, rfl, ?_, ?_⟩
  · rw [hlog]; simp
  · intro hm; simp [errorTurn, hm]
  · intro hm; simp [errorTurn, hm]

/-- A response with status 404: the log ends with the user turn and the error turn. -/
theorem pre_stream_failure_replaces_turn_witness :
    Accepted (welcomeRender []) (SendArg.text (lit "Summarize")) (lit "Summarize") ∧
    (applyEffects (AppState.ofRender (welcomeRender []))
        (sendMessage (welcomeRender []) (SendArg.text (lit "Summarize"))
          (envWith (FetchOutcome.response 404 0 [] StreamEnd.done)))).messageState
      = (AppState.ofRender (welcomeRender [])).messageState ++
          [userTurn 1000 (lit "Summarize"),
           errorTurn 2000 (JSError.ofMessage (lit "Document not found. Please reselect."))] :=
  ⟨by decide,
   (pre_stream_failure_replaces_turn (welcomeRender []) (SendArg.text (lit "Summarize"))
      (lit "Summarize") (envWith (FetchOutcome.response 404 0 [] StreamEnd.done))
      (AppState.ofRender (welcomeRender []))
      (JSError.ofMessage (lit "Document not found. Please reselect."))
      (by decide) (Or.inr ⟨404, 0, [], StreamEnd.done, rfl, by decide, rfl⟩)).1⟩

/-- C7, counterexample: the text `The document is ` has been flushed into the
assistant turn when the read rejects with a `TypeError`; in the final log no
turn carries the assistant id any more, and the last turn is a new error turn
whose content does not begin with the flushed text. -/
theorem mid_stream_failure_counterexample :
    lit "The document is " ∈ updateContents (assistantMessageIdOf 1000)
      (dispatched (sendMessage (welcomeRender []) (SendArg.text (lit "Summarize"))
        (envWith (flushedThenRejected
          { name := lit "TypeError", message := lit "network error" })))) ∧
    contentOf (finalLog (welcomeRender []) (SendArg.text (lit "Summarize"))
        (envWith (flushedThenRejected
          { name := lit "TypeError", message := lit "network error" })))
      (assistantMessageIdOf 1000) = none ∧
    ((finalLog (welcomeRender []) (SendArg.text (lit "Summarize"))
        (envWith (flushedThenRejected
          { name := lit "TypeError", message := lit "network error" }))).getLast?.map
        (fun m => (m.id, m.content)))
      = some (errorMessageIdOf 2000, lit "❌ network error") ∧
    ¬ (lit "The document is " <+: lit "❌ network error") := by
  decide

/-- C7, amended: when the stream of an accepted call fails with a non-abort
error after text has been flushed into the assistant turn, the turn is not
patched: the final log has as many turns as right after the two turns were
appended, its last turn is a new error turn (id `error-<t>`, `error = true`,
content the mark followed by the error's message or the fallback text), and,
when no earlier turn carries the assistant id, the final log is the log
before the call followed by the user turn and that error turn. -/
theorem mid_stream_failure_replaces_turn (r : Render) (content : SendArg) (q : JSString)
    (env : SendEnv) (st : AppState) (status : Nat) (start : Int)
    (reads : List (List Nat × Int)) (e : JSError)
    (h : Accepted r content q)
    (hf : env.fetched = FetchOutcome.response status start reads (StreamEnd.rejected e))
    (hok : responseOk status = true)
    (hne : e.name ≠ lit "AbortError") :
    (applyEffects st (sendMessage r content env)).messageState.length
      = st.messageState.length + 2 ∧
    (applyEffects st (sendMessage r content env)).messageState.getLast?
      = some (errorTurn env.errorClock e) ∧
    ((∀ m ∈ st.messageState, m.id ≠ assistantMessageIdOf env.assistantClock) →
      (applyEffects st (sendMessage r content env)).messageState
        = st.messageState ++ [userTurn env.userClock q, errorTurn env.errorClock e]) := by
  obtain ⟨-, cs, h2, -, -⟩ :=
    readLoop_spec (assistantMessageIdOf env.assistantClock) reads (LoopState.start start)
  have ht : tryBlock (assistantMessageIdOf env.assistantClock) env.fetched
      = (cs.map (Action.updateMessageById (assistantMessageIdOf env.assistantClock)),
         some e) := by
    simp [hf, tryBlock, hok, h2]
  rw [sendMessage_of_accepted h, applyEffects_messageState, dispatched_acceptedSend]
  simp only [ht, dispatched_catchBlock_error _ _ _ _ hne]
  refine ⟨?_, ?_, ?_⟩
  · rw [List.foldl_append, List.foldl_append]
    simp only [List.foldl_cons, List.foldl_nil]
    simp [messageReducer, foldl_updates_length]
  · rw [List.foldl_append]
    simp [messageReducer]
  · intro hfresh
    have := log_after_try st.messageState (userTurn env.userClock q)
      { id := assistantMessageIdOf env.assistantClock, role := lit "assistant",
        content := [], error := false } cs
      [Action.removeLastMessage, Action.addMessage (errorTurn env.errorClock e)]
      (userMessageIdOf_ne_assistantMessageIdOf _ _) hfresh
    simp only [userTurn] at this ⊢
    rw [this]
    simp [messageReducer, List.dropLast_append_cons]

/-- A stream that fails after one flush: the last turn is the error turn. -/
theorem mid_stream_failure_replaces_turn_witness :
    Accepted (welcomeRender []) (SendArg.text (lit "Summarize")) (lit "Summarize") ∧
    (applyEffects (AppState.ofRender (welcomeRender []))
        (sendMessage (welcomeRender []) (SendArg.text (lit "Summarize"))
          (envWith (flushedThenRejected
            { name := lit "TypeError", message := lit "network error" })))).messageState.getLast?
      = some (errorTurn 2000 { name := lit "TypeError", message := lit "network error" }) :=
  ⟨by decide,
   (mid_stream_failure_replaces_turn (welcomeRender []) (SendArg.text (lit "Summarize"))
      (lit "Summarize")
      (envWith (flushedThenRejected { name := lit "TypeError", message := lit "network error" }))
      (AppState.ofRender (welcomeRender [])) 200 1001 _
      { name := lit "TypeError", message := lit "network error" }
      (by decide) rfl (by decide) (by decide)).2.1⟩

/-! ## Independence of chunk boundaries -/

theorem decodeStream_append (a b : List Nat) :
    ∀ s : Utf8State, decodeStream s (a ++ b)
      = ((decodeStream (decodeStream s a).1 b).1,
         (decodeStream s a).2 ++ (decodeStream (decodeStream s a).1 b).2) := by
  induction a with
  | nil => intro s; simp [decodeStream]
  | cons x a ih =>
    intro s
    rw [List.cons_append]
    simp only [decodeStream]
    rw [ih]
    simp only [List.append_assoc]

theorem decodeChunks_flatten (values : List (List Nat)) :
    ∀ s : Utf8State,
      (decodeChunks s values).flatten = (decodeStream s values.flatten).2 := by
  induction values with
  | nil => intro s; simp [decodeChunks, decodeStream]
  | cons v values ih =>
    intro s
    simp only [decodeChunks, List.flatten_cons, decodeStream_append, ih]

/-- C8, counterexample: the bytes `48 69 E2 82` (`Hi` and the first two bytes
of a three-byte character), delivered as the chunks `48 69 E2` and `82`: the
final content is `Hi`, while decoding the four bytes at once gives `Hi`
followed by U+FFFD. -/
theorem chunked_decoding_counterexample :
    (updateContents (assistantMessageIdOf 1000)
        (dispatched (sendMessage (welcomeRender []) (SendArg.text (lit "Summarize"))
          (envWith (FetchOutcome.response 200 1001
            [([0x48, 0x69, 0xE2], 1040), ([0x82], 1080)] StreamEnd.done))))).getLast?
      = some (lit "Hi") ∧
    decodeWhole [0x48, 0x69, 0xE2, 0x82] = lit "Hi" ++ [0xFFFD] ∧
    lit "Hi" ≠ decodeWhole ([[0x48, 0x69, 0xE2], [0x82]] : List (List Nat)).flatten := by
  decide

/-- C8, amended: for every byte sequence that does not stop inside a
multi-byte character and every way of splitting it into chunks, also inside a
multi-byte character, the final content of the assistant turn (no
cancellation, no error) is the UTF-8 decoding of the whole sequence decoded at
once. -/
theorem chunked_decoding_matches_whole (r : Render) (content : SendArg) (q : JSString)
    (env : SendEnv) (status : Nat) (start : Int) (reads : List (List Nat × Int))
    (bytes : List Nat)
    (h : Accepted r content q)
    (hf : env.fetched = FetchOutcome.response status start reads StreamEnd.done)
    (hok : responseOk status = true)
    (hsplit : (reads.map Prod.fst).flatten = bytes)
    (hend : endsInsideCharacter bytes = false) :
    (updateContents (assistantMessageIdOf env.assistantClock)
        (dispatched (sendMessage r content env))).getLast? = some (decodeWhole bytes) := by
  obtain ⟨pre, h1, -, -⟩ := contents_of_done h hf hok
  have hn : (decodeStream Utf8State.init bytes).1.bytesNeeded = 0 := by
    simpa [endsInsideCharacter] using hend
  rw [h1, List.getLast?_concat, decodeChunks_flatten, hsplit]
  simp [decodeWhole, hn]

/-- A text with a three-byte character, split after the first byte of that character. -/
theorem chunked_decoding_matches_whole_witness :
    Accepted (welcomeRender []) (SendArg.text (lit "Summarize")) (lit "Summarize") ∧
    endsInsideCharacter (bytesOf "Prix: 5 €.") = false ∧
    (updateContents (assistantMessageIdOf 1000)
        (dispatched (sendMessage (welcomeRender []) (SendArg.text (lit "Summarize"))
          (envWith (FetchOutcome.response 200 1001
            [((bytesOf "Prix: 5 €.").take 9, 1040), ((bytesOf "Prix: 5 €.").drop 9, 1080)]
            StreamEnd.done))))).getLast?
      = some (decodeWhole (bytesOf "Prix: 5 €.")) :=
  ⟨by decide, by decide,
   chunked_decoding_matches_whole (welcomeRender []) (SendArg.text (lit "Summarize"))
      (lit "Summarize")
      (envWith (FetchOutcome.response 200 1001
        [((bytesOf "Prix: 5 €.").take 9, 1040), ((bytesOf "Prix: 5 €.").drop 9, 1080)]
        StreamEnd.done))
      200 1001 _ (bytesOf "Prix: 5 €.") (by decide) rfl (by decide) (by decide) (by decide)⟩

/-! ## The flush policy -/

theorem sentenceBreakFrom_iff (s : JSString) :
    sentenceBreakFrom s = true ↔
      ∃ pre c ws, s = pre ++ c :: ws ∧ isSentenceEnd c = true ∧ ∀ w ∈ ws, isSpace w = true := by
  induction s with
  | nil => simp [sentenceBreakFrom]
  | cons a s ih =>
    simp only [sentenceBreakFrom, Bool.or_eq_true, Bool.and_eq_true, List.all_eq_true, ih]
    constructor
    · rintro (⟨ha, hs⟩ | ⟨pre, c, ws, rfl, hc, hws⟩)
      · exact ⟨[], a, s, rfl, ha, hs⟩
      · exact ⟨a :: pre, c, ws, rfl, hc, hws⟩
    · rintro ⟨pre, c, ws, heq, hc, hws⟩
      cases pre with
      | nil =>
        simp only [List.nil_append, List.cons.injEq] at heq
        obtain ⟨rfl, rfl⟩ := heq
        exact Or.inl ⟨hc, hws⟩
      | cons p pre =>
        simp only [List.cons_append, List.cons.injEq] at heq
        obtain ⟨rfl, rfl⟩ := heq
        exact Or.inr ⟨pre, c, ws, rfl, hc, hws⟩

theorem testEndsInSpace_iff (s : JSString) :
    testEndsInSpace s = true ↔ ∃ pre c, s = pre ++ [c] ∧ isSpace c = true := by
  unfold testEndsInSpace
  rcases List.eq_nil_or_concat s with rfl | ⟨pre, c, rfl⟩
  · simp
  · rw [List.concat_eq_append, List.getLast?_concat]
    constructor
    · intro hc; exact ⟨pre, c, rfl, hc⟩
    · rintro ⟨p, d, heq, hd⟩
      have hl := congrArg List.getLast? heq
      simp only [List.getLast?_concat, Option.some.injEq] at hl
      rw [hl]; exact hd

/-- C9, counterexample: the first chunk `hello ` arrives 40 ms after the loop
started; the buffer ends in a space right after the word `hello`, yet nothing
is flushed, because `inWord` is still false. And the chunk made of a newline
and a space is flushed, although that buffer ends in a space which follows no
word. -/
theorem flush_policy_counterexample :
    flushed (onChunk (assistantMessageIdOf 1000) (LoopState.start 1000) (lit "hello ") 1040)
      = false ∧
    specShouldFlush (lit "hello ") (1040 - 1000) = true ∧
    flushed (onChunk (assistantMessageIdOf 1000) (LoopState.start 1000) (lit "\n ") 1040)
      = true ∧
    specShouldFlush (lit "\n ") (1040 - 1000) = false := by
  decide

/-- C9, amended: an iteration that receives a chunk flushes (it dispatches
the flushed text followed by the buffer, and empties the buffer) if and only
if at least 30 ms have elapsed since the last flush and, for the buffer after
the chunk is appended, one of these holds: one of `.`, `!`, `?` or a newline
occurs in it with nothing but white space after it; it ends in white space and
`inWord` is true; its length exceeds 15. -/
theorem flush_policy (id : JSString) (s : LoopState) (chunk : JSString) (now : Int) :
    (flushed (onChunk id s chunk now) = true ↔
      now - s.lastUpdateTime ≥ 30 ∧
        ((∃ pre c ws, s.buffer ++ chunk = pre ++ c :: ws ∧
            (c = 0x2E ∨ c = 0x21 ∨ c = 0x3F ∨ c = 0x0A) ∧ ∀ w ∈ ws, isSpace w = true) ∨
         ((∃ pre c, s.buffer ++ chunk = pre ++ [c] ∧ isSpace c = true) ∧ s.inWord = true) ∨
         (s.buffer ++ chunk).length > 15)) ∧
    (flushed (onChunk id s chunk now) = true →
      (onChunk id s chunk now).2
          = [Action.updateMessageById id (s.fullText ++ (s.buffer ++ chunk))] ∧
        (onChunk id s chunk now).1.buffer = []) ∧
    (flushed (onChunk id s chunk now) = false →
      (onChunk id s chunk now).2 = [] ∧
        (onChunk id s chunk now).1.buffer = s.buffer ++ chunk) := by
  have hiff : shouldFlush (s.buffer ++ chunk) s.inWord (now - s.lastUpdateTime) = true ↔
      now - s.lastUpdateTime ≥ 30 ∧
        ((∃ pre c ws, s.buffer ++ chunk = pre ++ c :: ws ∧
            (c = 0x2E ∨ c = 0x21 ∨ c = 0x3F ∨ c = 0x0A) ∧ ∀ w ∈ ws, isSpace w = true) ∨
         ((∃ pre c, s.buffer ++ chunk = pre ++ [c] ∧ isSpace c = true) ∧ s.inWord = true) ∨
         (s.buffer ++ chunk).length > 15) := by
    simp only [shouldFlush, hasNaturalBreak, testSentenceBreak, Bool.and_eq_true,
      Bool.or_eq_true, decide_eq_true_eq, sentenceBreakFrom_iff, testEndsInSpace_iff,
      UPDATE_INTERVAL, isSentenceEnd, beq_iff_eq, or_assoc]
  by_cases hf : shouldFlush (s.buffer ++ chunk) s.inWord (now - s.lastUpdateTime) = true
  · have hfl : flushed (onChunk id s chunk now) = true := by
      simp [flushed, onChunk, hf]
    refine ⟨?_, ?_, ?_⟩
    · rw [← hiff]; simp [hfl, hf]
    · intro _; simp [onChunk, hf]
    · intro hc; rw [hfl] at hc; cases hc
  · have hfl : flushed (onChunk id s chunk now) = false := by
      simp [flushed, onChunk, hf]
    refine ⟨?_, ?_, ?_⟩
    · rw [← hiff]; simp [hfl, hf]
    · intro hc; rw [hfl] at hc; cases hc
    · intro _; simp [onChunk, hf]

/-- A first chunk of 16 code units arriving 30 ms after the loop started is flushed. -/
theorem flush_policy_witness :
    flushed (onChunk (assistantMessageIdOf 1000) (LoopState.start 1000)
        (lit "The document is ") 1030) = true ∧
    (onChunk (assistantMessageIdOf 1000) (LoopState.start 1000)
        (lit "The document is ") 1030).2
      = [Action.updateMessageById (assistantMessageIdOf 1000)
          ((LoopState.start 1000).fullText ++
            ((LoopState.start 1000).buffer ++ lit "The document is "))] :=
  ⟨by decide,
   ((flush_policy (assistantMessageIdOf 1000) (LoopState.start 1000)
      (lit "The document is ") 1030).2.1 (by decide)).1⟩

/-! ## The reducer -/

theorem mapLastFrom_ids (n : Nat) (payload : JSString) :
    ∀ (log : List Message) (i : Nat), idsOf (mapLastFrom n payload i log) = idsOf log := by
  intro log
  induction log with
  | nil => intro i; rfl
  | cons m log ih =>
    intro i
    simp only [mapLastFrom, idsOf, List.map_cons, List.cons.injEq]
    refine ⟨?_, ih (i + 1)⟩
    split <;> rfl

/-- C15: `UPDATE_MESSAGE_BY_ID` with an id that no turn of the log carries
returns the log as it was, whatever the new content. -/
theorem update_unknown_id_is_noop (log : List Message) (id content : JSString)
    (h : ∀ m ∈ log, m.id ≠ id) :
    messageReducer log (Action.updateMessageById id content) = log := by
  simp only [messageReducer]
  conv_rhs => rw [← List.map_id log]
  apply List.map_congr_left
  intro m hm
  simp [h m hm]

/-- The welcome log holds no turn with the id `assistant-1001`. -/
theorem update_unknown_id_is_noop_witness :
    (∀ m ∈ (welcomeRender []).messageState, m.id ≠ assistantMessageIdOf 1000) ∧
    messageReducer (welcomeRender []).messageState
        (Action.updateMessageById (assistantMessageIdOf 1000) (lit "text"))
      = (welcomeRender []).messageState :=
  ⟨by decide,
   update_unknown_id_is_noop (welcomeRender []).messageState (assistantMessageIdOf 1000)
     (lit "text") (by decide)⟩

/-- C16: `UPDATE_MESSAGE_BY_ID` returns a log of the same length; at every
position, a turn that carries the id has its content replaced and its id, role
and error flag kept, and a turn that does not carry the id is unchanged. -/
theorem update_by_id_frame (log : List Message) (id content : JSString) :
    (messageReducer log (Action.updateMessageById id content)).length = log.length ∧
    ∀ (i : Nat) (m : Message), log[i]? = some m →
      ∃ m', (messageReducer log (Action.updateMessageById id content))[i]? = some m' ∧
        (m.id = id → m'.content = content ∧ m'.id = m.id ∧ m'.role = m.role ∧
          m'.error = m.error) ∧
        (m.id ≠ id → m' = m) := by
  refine ⟨by simp [messageReducer], ?_⟩
  intro i m hm
  refine ⟨if m.id = id then { m with content := content } else m, ?_, ?_, ?_⟩
  · simp [messageReducer, List.getElem?_map, hm]
  · intro hid; simp [hid]
  · intro hid; simp [hid]

/-- A log of one user turn, whose id is given to the action: the turn at
position 0 gets the new content and keeps its id, role and error flag. -/
theorem update_by_id_frame_witness :
    [userTurn 1000 (lit "Summarize")][0]? = some (userTurn 1000 (lit "Summarize")) ∧
    ∃ m', (messageReducer [userTurn 1000 (lit "Summarize")]
        (Action.updateMessageById (userMessageIdOf 1000) (lit "text")))[0]? = some m' ∧
      ((userTurn 1000 (lit "Summarize")).id = userMessageIdOf 1000 →
        m'.content = lit "text" ∧ m'.id = (userTurn 1000 (lit "Summarize")).id ∧
          m'.role = (userTurn 1000 (lit "Summarize")).role ∧
          m'.error = (userTurn 1000 (lit "Summarize")).error) ∧
      ((userTurn 1000 (lit "Summarize")).id ≠ userMessageIdOf 1000 →
        m' = userTurn 1000 (lit "Summarize")) :=
  ⟨rfl,
   (update_by_id_frame [userTurn 1000 (lit "Summarize")] (userMessageIdOf 1000)
      (lit "text")).2 0 (userTurn 1000 (lit "Summarize")) rfl⟩

/-- C17, counterexample: on the empty log the specified operation fails with
`EmptyLogError`, while `REMOVE_LAST_MESSAGE` returns the empty log. -/
theorem remove_last_counterexample :
    specRemoveLast [] = Except.error "EmptyLogError" ∧
    messageReducer [] Action.removeLastMessage = [] ∧
    specRemoveLast [] ≠ Except.ok (messageReducer [] Action.removeLastMessage) := by
  refine ⟨rfl, rfl, ?_⟩
  intro h
  cases h

/-- C17, amended: `REMOVE_LAST_MESSAGE` never fails: on the empty log it
returns the empty log, and on a log with a last turn it returns the log
without that turn, as the specified operation does. -/
theorem remove_last_total (log : List Message) (m : Message) :
    messageReducer [] Action.removeLastMessage = [] ∧
    messageReducer (log ++ [m]) Action.removeLastMessage = log ∧
    specRemoveLast (log ++ [m])
      = Except.ok (messageReducer (log ++ [m]) Action.removeLastMessage) ∧
    (messageReducer log Action.removeLastMessage).length = log.length - 1 := by
  refine ⟨rfl, by simp [messageReducer], by simp [specRemoveLast, messageReducer],
    by simp [messageReducer]⟩

/-- C18: `ADD_MESSAGE` returns the log with the turn appended at the end: the
length grows by one, the last element is the turn, and the earlier elements
are those of the input log, in the same order. -/
theorem add_message_appends (log : List Message) (turn : Message) :
    messageReducer log (Action.addMessage turn) = log ++ [turn] ∧
    (messageReducer log (Action.addMessage turn)).length = log.length + 1 ∧
    (messageReducer log (Action.addMessage turn)).getLast? = some turn ∧
    (messageReducer log (Action.addMessage turn)).take log.length = log := by
  simp [messageReducer]

/-- C20: for every action other than `SET_MESSAGES`, the ids of the result
are the ids of the input log, or those ids with one id appended, or those ids
without the last one. -/
theorem reducer_keeps_order (log : List Message) (action : Action)
    (h : ∀ payload, action ≠ Action.setMessages payload) :
    idsOf (messageReducer log action) = idsOf log ∨
    (∃ id, idsOf (messageReducer log action) = idsOf log ++ [id]) ∨
    idsOf (messageReducer log action) = (idsOf log).dropLast := by
  cases action with
  | addMessage payload => exact Or.inr (Or.inl ⟨payload.id, by simp [messageReducer, idsOf]⟩)
  | updateLastMessage payload => exact Or.inl (mapLastFrom_ids _ _ _ _)
  | removeLastMessage =>
    refine Or.inr (Or.inr ?_)
    simp [messageReducer, idsOf, List.map_dropLast]
  | updateMessageById id content =>
    refine Or.inl ?_
    simp only [messageReducer, idsOf, List.map_map]
    apply List.map_congr_left
    intro m _
    simp only [Function.comp]
    split <;> rfl
  | setMessages payload => exact absurd rfl (h payload)
  | other => exact Or.inl rfl

/-- The action `REMOVE_LAST_MESSAGE` on the welcome log. -/
theorem reducer_keeps_order_witness :
    (∀ payload, Action.removeLastMessage ≠ Action.setMessages payload) ∧
    (idsOf (messageReducer (welcomeRender []).messageState Action.removeLastMessage)
        = idsOf (welcomeRender []).messageState ∨
      (∃ id, idsOf (messageReducer (welcomeRender []).messageState Action.removeLastMessage)
        = idsOf (welcomeRender []).messageState ++ [id]) ∨
      idsOf (messageReducer (welcomeRender []).messageState Action.removeLastMessage)
        = (idsOf (welcomeRender []).messageState).dropLast) :=
  ⟨fun _ h => Action.noConfusion h,
   reducer_keeps_order (welcomeRender []).messageState Action.removeLastMessage
     (fun _ h => Action.noConfusion h)⟩

theorem userMessageIdOf_ne_errorMessageIdOf (c c' : Int) :
    userMessageIdOf c ≠ errorMessageIdOf c' := by
  intro h
  have h' := congrArg List.head? h
  revert h'
  show ¬ ((117 :: lit "ser-" ++ lit (toString c)).head?
    = (101 :: lit "rror-" ++ lit (toString c')).head?)
  simp

theorem assistantMessageIdOf_ne_errorMessageIdOf (c c' : Int) :
    assistantMessageIdOf c ≠ errorMessageIdOf c' := by
  intro h
  have h' := congrArg List.head? h
  revert h'
  show ¬ ((97 :: lit "ssistant-" ++ lit (toString (c + 1))).head?
    = (101 :: lit "rror-" ++ lit (toString c')).head?)
  simp

/-- C19, counterexample: a first call at clock 1000 fails and leaves the turns
`user-1000` and `error-2000`; a second call that reads the same clock values
appends `user-1000` again, and the ids of the log are no longer distinct. -/
theorem unique_ids_counterexample :
    Accepted renderAfterFailure (SendArg.text (lit "Again")) (lit "Again") ∧
    (idsOf renderAfterFailure.messageState).Nodup ∧
    ¬ (idsOf (messageReducer renderAfterFailure.messageState
        (Action.addMessage (userTurn 1000 (lit "Again"))))).Nodup ∧
    (dispatched (sendMessage renderAfterFailure (SendArg.text (lit "Again"))
        (envWith (FetchOutcome.rejected (JSError.ofMessage (lit "Failed to fetch")))))).head?
      = some (Action.addMessage (userTurn 1000 (lit "Again"))) := by
  have hids : idsOf renderAfterFailure.messageState
      = [lit "initial", userMessageIdOf 1000, errorMessageIdOf 2000] := by decide
  refine ⟨by decide, ?_, ?_, by decide⟩
  · rw [hids]; decide
  · have h2 : idsOf (messageReducer renderAfterFailure.messageState
        (Action.addMessage (userTurn 1000 (lit "Again"))))
        = [lit "initial", userMessageIdOf 1000, errorMessageIdOf 2000, userMessageIdOf 1000] := by
      decide
    rw [h2]; decide

/-- C19, amended: after `ADD_MESSAGE` no two turns share an id if and only if
that held before and no turn of the log carries the id of the new turn; the
three ids made by one call of `sendMessage` differ from each other whatever
the clock reads. -/
theorem append_keeps_ids_unique_iff (log : List Message) (turn : Message) (t t' t'' : Int) :
    ((idsOf (messageReducer log (Action.addMessage turn))).Nodup ↔
      (idsOf log).Nodup ∧ ∀ m ∈ log, m.id ≠ turn.id) ∧
    userMessageIdOf t ≠ assistantMessageIdOf t' ∧
    userMessageIdOf t ≠ errorMessageIdOf t'' ∧
    assistantMessageIdOf t' ≠ errorMessageIdOf t'' := by
  refine ⟨?_, userMessageIdOf_ne_assistantMessageIdOf _ _,
    userMessageIdOf_ne_errorMessageIdOf _ _, assistantMessageIdOf_ne_errorMessageIdOf _ _⟩
  simp only [messageReducer, idsOf, List.map_append, List.map_cons, List.map_nil]
  rw [List.nodup_append]
  simp only [List.nodup_singleton, true_and, List.disjoint_singleton, List.mem_map, not_exists,
    not_and]

/-! ## Terminal outcomes of one call -/

theorem applyEffects_append (st : AppState) (a b : List Effect) :
    applyEffects st (a ++ b) = applyEffects (applyEffects st a) b := by
  simp [applyEffects, List.foldl_append]

/-- The actions of the `try` are updates of the assistant turn, whatever the
request yields. -/
theorem tryBlock_actions (id : JSString) (fetched : FetchOutcome) :
    ∃ cs : List JSString, (tryBlock id fetched).1 = cs.map (Action.updateMessageById id) := by
  cases fetched with
  | rejected error => exact ⟨[], rfl⟩
  | response status start reads ending =>
    obtain ⟨-, cs, h2, -, -⟩ := readLoop_spec id reads (LoopState.start start)
    by_cases hok : responseOk status = true
    · cases ending with
      | done =>
        by_cases hb : (readLoop id (LoopState.start start) reads).1.buffer = []
        · refine ⟨cs ++ [(readLoop id (LoopState.start start) reads).1.fullText], ?_⟩
          simp [tryBlock, hok, h2, onDone, hb]
        · refine ⟨cs ++ [(readLoop id (LoopState.start start) reads).1.fullText
              ++ (readLoop id (LoopState.start start) reads).1.buffer,
            (readLoop id (LoopState.start start) reads).1.fullText
              ++ (readLoop id (LoopState.start start) reads).1.buffer], ?_⟩
          simp [tryBlock, hok, h2, onDone, hb]
      | rejected error => exact ⟨cs, by simp [tryBlock, hok, h2]⟩
    · refine ⟨[], ?_⟩
      have hok' : responseOk status = false := by simpa using hok
      simp only [tryBlock, hok', Bool.not_false, if_true]
      split <;> rfl

theorem currentContentOf_fresh (log : List Message) (id : JSString)
    (h : ∀ m ∈ log, m.id ≠ id) : currentContentOf log id = [] := by
  have hf : log.find? (fun m => decide (m.id = id)) = none := by
    rw [List.find?_eq_none]
    intro m hm
    simpa using h m hm
  simp [currentContentOf, hf]

/-- C13: every terminal outcome of an accepted call (completion, cancellation,
error) leaves `isSending` false and `streamingMessageId` null, and a following
call with a non-blank question and a selected document, made at a render that
shows this `isSending`, is accepted and appends its two turns. -/
theorem terminal_outcome_clears_session (r : Render) (content : SendArg) (q : JSString)
    (env : SendEnv) (st : AppState) (h : Accepted r content q) :
    (applyEffects st (sendMessage r content env)).isSending = false ∧
    (applyEffects st (sendMessage r content env)).streamingMessageId = none ∧
    ∀ (r' : Render) (content' : SendArg) (q' : JSString) (env' : SendEnv),
      r'.isSending = (applyEffects st (sendMessage r content env)).isSending →
      messageContentOf content' r'.input = some q' → trim q' ≠ [] → r'.selectedPdf ≠ [] →
      Accepted r' content' q' ∧
      (dispatched (sendMessage r' content' env')).take 2
        = [Action.addMessage (userTurn env'.userClock q'),
           Action.addMessage (assistantTurn env'.assistantClock [])] := by
  have h1 : (applyEffects st (sendMessage r content env)).isSending = false := by
    rw [sendMessage_of_accepted h]
    simp only [acceptedSend]
    rw [applyEffects_append]
    rfl
  have h2 : (applyEffects st (sendMessage r content env)).streamingMessageId = none := by
    rw [sendMessage_of_accepted h]
    simp only [acceptedSend]
    rw [applyEffects_append]
    rfl
  refine ⟨h1, h2, ?_⟩
  intro r' content' q' env' hs hq ht hp
  have ha : Accepted r' content' q' := ⟨hq, ht, by rw [hs, h1], fun hc => hp hc.1⟩
  refine ⟨ha, ?_⟩
  rw [sendMessage_of_accepted ha, dispatched_acceptedSend]
  rfl

/-- After a cancelled stream, a second call at the render that shows the
cleared flag is accepted. -/
theorem terminal_outcome_clears_session_witness :
    Accepted (welcomeRender []) (SendArg.text (lit "Summarize")) (lit "Summarize") ∧
    (applyEffects (AppState.ofRender (welcomeRender []))
      (sendMessage (welcomeRender []) (SendArg.text (lit "Summarize"))
        (envWith bufferedThenAborted))).isSending = false ∧
    Accepted (welcomeRender []) (SendArg.text (lit "Again")) (lit "Again") :=
  ⟨by decide,
   (terminal_outcome_clears_session (welcomeRender []) (SendArg.text (lit "Summarize"))
      (lit "Summarize") (envWith bufferedThenAborted) (AppState.ofRender (welcomeRender []))
      (by decide)).1,
   ((terminal_outcome_clears_session (welcomeRender []) (SendArg.text (lit "Summarize"))
      (lit "Summarize") (envWith bufferedThenAborted) (AppState.ofRender (welcomeRender []))
      (by decide)).2.2 (welcomeRender []) (SendArg.text (lit "Again")) (lit "Again")
      (envWith bufferedThenAborted) (by decide) (by decide) (by decide) (by decide)).1⟩

theorem dispatched_catchBlock_abort (r : Render) (id : JSString) (clock : Int) (e : JSError)
    (habort : e.name = lit "AbortError") :
    dispatched (catchBlock r id clock e)
      = [Action.updateMessageById id (currentContentOf r.messageState id ++ stoppedMarker)] := by
  simp [catchBlock, habort, dispatched]

/-- The actions of an accepted call are the two appends, updates of the
assistant turn, and then nothing more or the replacement by an error turn. -/
theorem actions_of_accepted (r : Render) (q : JSString) (env : SendEnv) :
    ∃ (cs : List JSString) (rest : List Action),
      dispatched (acceptedSend r q env)
        = [Action.addMessage (userTurn env.userClock q),
           Action.addMessage (assistantTurn env.assistantClock [])]
          ++ cs.map (Action.updateMessageById (assistantMessageIdOf env.assistantClock))
          ++ rest ∧
      (rest = [] ∨ ∃ e : JSError,
        rest = [Action.removeLastMessage, Action.addMessage (errorTurn env.errorClock e)]) := by
  obtain ⟨cs, hcs⟩ := tryBlock_actions (assistantMessageIdOf env.assistantClock) env.fetched
  rw [dispatched_acceptedSend, hcs]
  cases ht : (tryBlock (assistantMessageIdOf env.assistantClock) env.fetched).2 with
  | none => exact ⟨cs, [], by simp [dispatched, userTurn, assistantTurn], Or.inl rfl⟩
  | some e =>
    by_cases habort : e.name = lit "AbortError"
    · refine ⟨cs ++ [currentContentOf r.messageState (assistantMessageIdOf env.assistantClock)
          ++ stoppedMarker], [], ?_, Or.inl rfl⟩
      simp [dispatched_catchBlock_abort _ _ _ _ habort, userTurn, assistantTurn]
    · refine ⟨cs, [Action.removeLastMessage, Action.addMessage (errorTurn env.errorClock e)],
        ?_, Or.inr ⟨e, rfl⟩⟩
      simp [dispatched_catchBlock_error _ _ _ _ habort, userTurn, assistantTurn]

/-- C14, counterexample: the log at the time of the call holds a turn with
the id `assistant-1001`, and the clock reads 1000, so that the new assistant
turn gets the same id; the updates of the stream then rewrite the earlier
turn too, and the final log does not begin with the log at the time of the
call. -/
theorem two_turns_counterexample :
    Accepted collidingRender (SendArg.text (lit "Summarize")) (lit "Summarize") ∧
    (finalLog collidingRender (SendArg.text (lit "Summarize"))
        (envWith (FetchOutcome.response 200 1001 [(bytesOf "Hi.", 1040)] StreamEnd.done))).take
        collidingRender.messageState.length
      = [assistantTurn 1000 (lit "Hi.")] ∧
    (finalLog collidingRender (SendArg.text (lit "Summarize"))
        (envWith (FetchOutcome.response 200 1001 [(bytesOf "Hi.", 1040)] StreamEnd.done))).take
        collidingRender.messageState.length
      ≠ collidingRender.messageState := by
  decide

/-- C14, amended: an accepted call that runs to its end with no other call
interleaved, whichever way it ends, leaves a log with exactly two more turns
than the log at the time of the call; when no turn of that log carries the id
of the new assistant turn, the final log is that log followed by the user turn
and one turn of role `assistant`. -/
theorem two_turns_per_send (r : Render) (content : SendArg) (q : JSString) (env : SendEnv)
    (h : Accepted r content q) :
    (finalLog r content env).length = r.messageState.length + 2 ∧
    ((∀ m ∈ r.messageState, m.id ≠ assistantMessageIdOf env.assistantClock) →
      ∃ a : Message,
        finalLog r content env = r.messageState ++ [userTurn env.userClock q, a] ∧
        a.role = lit "assistant") := by
  obtain ⟨cs, rest, hd, hrest⟩ := actions_of_accepted r q env
  have hlog : finalLog r content env
      = (dispatched (acceptedSend r q env)).foldl messageReducer r.messageState := by
    rw [finalLog, sendMessage_of_accepted h, applyEffects_messageState]
    rfl
  rw [hlog, hd]
  refine ⟨?_, ?_⟩
  · rw [List.foldl_append, List.foldl_append]
    simp only [List.foldl_cons, List.foldl_nil]
    rcases hrest with rfl | ⟨e, rfl⟩
    · simp [messageReducer, foldl_updates_length]
    · simp [messageReducer, foldl_updates_length]
  · intro hfresh
    have hu : (userTurn env.userClock q).id ≠ (assistantTurn env.assistantClock []).id :=
      userMessageIdOf_ne_assistantMessageIdOf _ _
    have := log_after_try r.messageState (userTurn env.userClock q)
      (assistantTurn env.assistantClock []) cs rest hu hfresh
    have hid : (assistantTurn env.assistantClock []).id
        = assistantMessageIdOf env.assistantClock := rfl
    rw [hid] at this
    rw [this]
    rcases hrest with rfl | ⟨e, rfl⟩
    · exact ⟨_, rfl, rfl⟩
    · refine ⟨errorTurn env.errorClock e, ?_, rfl⟩
      simp [messageReducer, List.dropLast_append_cons]

/-- A cancelled call at the welcome render: the log ends with the user turn
and one assistant turn. -/
theorem two_turns_per_send_witness :
    Accepted (welcomeRender []) (SendArg.text (lit "Summarize")) (lit "Summarize") ∧
    (∀ m ∈ (welcomeRender []).messageState, m.id ≠ assistantMessageIdOf 1000) ∧
    ∃ a : Message,
      finalLog (welcomeRender []) (SendArg.text (lit "Summarize"))
          (envWith bufferedThenAborted)
        = (welcomeRender []).messageState ++ [userTurn 1000 (lit "Summarize"), a] ∧
      a.role = lit "assistant" :=
  ⟨by decide, by decide,
   (two_turns_per_send (welcomeRender []) (SendArg.text (lit "Summarize")) (lit "Summarize")
     (envWith bufferedThenAborted) (by decide)).2 (by decide)⟩

/-- C11, counterexample: the chunk `The doc` has been received and is still
in the buffer, nothing has been flushed, when the read rejects with
`AbortError`; the final content of the assistant turn is the marker alone,
not the buffered text followed by the marker. -/
theorem cancellation_residual_counterexample :
    (readLoop (assistantMessageIdOf 1000) (LoopState.start 1001)
        [(bytesOf "The doc", 1040)]).1.fullText = [] ∧
    (readLoop (assistantMessageIdOf 1000) (LoopState.start 1001)
        [(bytesOf "The doc", 1040)]).1.buffer = lit "The doc" ∧
    contentOf (finalLog (welcomeRender []) (SendArg.text (lit "Summarize"))
        (envWith bufferedThenAborted)) (assistantMessageIdOf 1000) = some stoppedMarker ∧
    stoppedMarker ≠ [] ++ lit "The doc" ++ stoppedMarker := by
  decide

/-- C11, amended: on cancellation before end-of-stream the text still held in
the buffer is dropped. The updates dispatched for the assistant turn are those
of the flushes of the loop, followed by one update whose content is what
line 954 reads for the turn followed by the marker; no update carries the
residual buffer. When nothing had been flushed and no turn of the log carries
the id of the assistant turn, the final log is the log at the time of the call
followed by the user turn and the assistant turn holding the marker alone,
whatever the buffer holds. -/
theorem cancellation_drops_residual (r : Render) (content : SendArg) (q : JSString)
    (env : SendEnv) (status : Nat) (start : Int) (reads : List (List Nat × Int))
    (e : JSError)
    (h : Accepted r content q)
    (hf : env.fetched = FetchOutcome.response status start reads (StreamEnd.rejected e))
    (hok : responseOk status = true)
    (habort : e.name = lit "AbortError") :
    dispatched (sendMessage r content env)
      = [Action.addMessage (userTurn env.userClock q),
         Action.addMessage (assistantTurn env.assistantClock [])]
        ++ (readLoop (assistantMessageIdOf env.assistantClock) (LoopState.start start) reads).2
        ++ [Action.updateMessageById (assistantMessageIdOf env.assistantClock)
             (currentContentOf r.messageState (assistantMessageIdOf env.assistantClock)
               ++ stoppedMarker)] ∧
    ((readLoop (assistantMessageIdOf env.assistantClock) (LoopState.start start) reads).2 = [] →
      (∀ m ∈ r.messageState, m.id ≠ assistantMessageIdOf env.assistantClock) →
      finalLog r content env
        = r.messageState ++ [userTurn env.userClock q,
            assistantTurn env.assistantClock stoppedMarker]) := by
  have hd : dispatched (sendMessage r content env)
      = [Action.addMessage (userTurn env.userClock q),
         Action.addMessage (assistantTurn env.assistantClock [])]
        ++ (readLoop (assistantMessageIdOf env.assistantClock) (LoopState.start start) reads).2
        ++ [Action.updateMessageById (assistantMessageIdOf env.assistantClock)
             (currentContentOf r.messageState (assistantMessageIdOf env.assistantClock)
               ++ stoppedMarker)] := by
    rw [sendMessage_of_accepted h, dispatched_acceptedSend]
    simp only [hf, tryBlock, hok, Bool.not_true, Bool.false_eq_true, if_false,
      dispatched_catchBlock_abort _ _ _ _ habort]
    rfl
  refine ⟨hd, ?_⟩
  intro hnone hfresh
  have hlog : finalLog r content env
      = (dispatched (sendMessage r content env)).foldl messageReducer r.messageState := by
    rw [finalLog, applyEffects_messageState]
    rfl
  have hu : (userTurn env.userClock q).id ≠ (assistantTurn env.assistantClock []).id :=
    userMessageIdOf_ne_assistantMessageIdOf _ _
  have := log_after_try r.messageState (userTurn env.userClock q)
    (assistantTurn env.assistantClock []) [stoppedMarker] [] hu hfresh
  rw [hlog, hd, hnone, currentContentOf_fresh _ _ hfresh]
  simpa [assistantTurn] using this

/-- The chunk `The doc` stays in the buffer until the read is aborted: the
assistant turn ends with the marker alone. -/
theorem cancellation_drops_residual_witness :
    Accepted (welcomeRender []) (SendArg.text (lit "Summarize")) (lit "Summarize") ∧
    (readLoop (assistantMessageIdOf 1000) (LoopState.start 1001)
        [(bytesOf "The doc", 1040)]).2 = [] ∧
    (∀ m ∈ (welcomeRender []).messageState, m.id ≠ assistantMessageIdOf 1000) ∧
    finalLog (welcomeRender []) (SendArg.text (lit "Summarize")) (envWith bufferedThenAborted)
      = (welcomeRender []).messageState ++ [userTurn 1000 (lit "Summarize"),
          assistantTurn 1000 stoppedMarker] :=
  ⟨by decide, by decide, by decide,
   (cancellation_drops_residual (welcomeRender []) (SendArg.text (lit "Summarize"))
      (lit "Summarize") (envWith bufferedThenAborted) 200 1001 [(bytesOf "The doc", 1040)]
      abortError (by decide) rfl (by decide) (by decide)).2 (by decide) (by decide)⟩

/-! ## Calls in flight -/

theorem readLoopSegments_flatten (id : JSString) :
    ∀ (reads : List (List Nat × Int)) (s : LoopState),
      (readLoopSegments id s reads).flatten = (readLoop id s reads).2 := by
  intro reads
  induction reads with
  | nil => intro s; rfl
  | cons rd reads ih =>
    intro s
    obtain ⟨value, now⟩ := rd
    simp only [readLoopSegments, readLoop, List.flatten_cons, ih]

theorem flatten_map_map_dispatch (segments : List (List Action)) :
    (segments.map (fun actions => actions.map Effect.dispatch)).flatten
      = segments.flatten.map Effect.dispatch := by
  induction segments with
  | nil => rfl
  | cons a segments ih =>
    simp only [List.map_cons, List.flatten_cons, List.map_append, ih]

/-- The pieces of an accepted call, put end to end, are the effects of the
call. -/
theorem acceptedSend_eq_segments (r : Render) (q : JSString) (env : SendEnv) :
    acceptedSend r q env = startOfSend r q env ++ (laterSegments r env).flatten := by
  have hsplit : ((tryBlock (assistantMessageIdOf env.assistantClock) env.fetched).1).map
        Effect.dispatch
      = ((match loopReads env.fetched with
          | some (start, reads) =>
            (readLoopSegments (assistantMessageIdOf env.assistantClock)
              (LoopState.start start) reads).map (fun actions => actions.map Effect.dispatch)
          | none => []) : List (List Effect)).flatten
        ++ (endActions (assistantMessageIdOf env.assistantClock) env.fetched).map
            Effect.dispatch := by
    cases hf : env.fetched with
    | rejected error => rfl
    | response status start reads ending =>
      by_cases hok : responseOk status = true
      · cases ending with
        | done =>
          simp [tryBlock, loopReads, endActions, hok, flatten_map_map_dispatch,
            readLoopSegments_flatten]
        | rejected error =>
          simp [tryBlock, loopReads, endActions, hok, flatten_map_map_dispatch,
            readLoopSegments_flatten]
      · have hok' : responseOk status = false := by simpa using hok
        cases ending with
        | done =>
          simp only [tryBlock, loopReads, endActions, hok', Bool.not_false, if_true]
          split <;> simp
        | rejected error =>
          simp only [tryBlock, loopReads, endActions, hok', Bool.not_false, if_true]
          split <;> simp
  simp only [acceptedSend, startOfSend, laterSegments, finallyBlock, userTurn, assistantTurn,
    List.flatten_append, List.flatten_cons, List.flatten_nil, List.append_nil, hsplit,
    List.append_assoc]

theorem acceptedQuestion_eq_some {r : Render} {content : SendArg} {q : JSString} :
    acceptedQuestion r content = some q ↔ Accepted r content q := by
  unfold acceptedQuestion Accepted
  cases hm : messageContentOf content r.input with
  | none =>
    dsimp only
    constructor
    · intro h; cases h
    · rintro ⟨h, -⟩; cases h
  | some m =>
    dsimp only
    by_cases h1 : trim m = [] ∨ r.isSending = true
    · rw [if_pos h1]
      constructor
      · intro h; cases h
      · rintro ⟨hq, h2, h3, -⟩
        cases hq
        rcases h1 with h1 | h1
        · exact absurd h1 h2
        · rw [h3] at h1; cases h1
    · rw [if_neg h1]
      push_neg at h1
      by_cases h2 : r.selectedPdf = [] ∧ r.documentsLength > 0
      · rw [if_pos h2]
        constructor
        · intro h; cases h
        · rintro ⟨-, -, -, h4⟩; exact absurd h2 h4
      · rw [if_neg h2]
        constructor
        · intro h
          cases h
          exact ⟨rfl, h1.1, by simpa using h1.2, h2⟩
        · rintro ⟨h, -⟩; exact h

theorem refused_send_keeps_isSending (r : Render) (content : SendArg) (env : SendEnv)
    (st : AppState) (h : acceptedQuestion r content = none) :
    (applyEffects st (sendMessage r content env)).isSending = st.isSending := by
  unfold acceptedQuestion at h
  unfold sendMessage
  cases hm : messageContentOf content r.input with
  | none => rfl
  | some m =>
    rw [hm] at h
    simp only at h ⊢
    by_cases h1 : trim m = [] ∨ r.isSending = true
    · simp only [h1, if_true]; rfl
    · by_cases h2 : r.selectedPdf = [] ∧ r.documentsLength > 0
      · simp only [h1, h2, if_true, if_false]; rfl
      · simp [h1, h2] at h

theorem quiet_map_dispatch (actions : List Action) : Quiet (actions.map Effect.dispatch) := by
  induction actions with
  | nil => intro st; rfl
  | cons a actions ih =>
    intro st
    simp only [List.map_cons, applyEffects, List.foldl_cons]
    exact ih (applyEffect st (Effect.dispatch a))

theorem laterSegments_shape (r : Render) (env : SendEnv) :
    laterSegments r env ≠ [] ∧ ∀ segment ∈ (laterSegments r env).dropLast, Quiet segment := by
  unfold laterSegments
  refine ⟨by simp, ?_⟩
  rw [List.dropLast_concat]
  intro segment hs
  cases hl : loopReads env.fetched with
  | none => simp [hl] at hs
  | some p =>
    obtain ⟨start, reads⟩ := p
    simp only [hl, List.mem_map] at hs
    obtain ⟨actions, -, rfl⟩ := hs
    exact quiet_map_dispatch actions

theorem step_keeps_one_session (w : World) (e : Event) (he : e ≠ Event.stop)
    (h : OneSession w) : OneSession (step w e) := by
  cases e with
  | stop => exact absurd rfl he
  | send content env =>
    cases hq : acceptedQuestion w.render content with
    | none =>
      have hs : step w (Event.send content env)
          = { w with app := applyEffects w.app (sendMessage w.render content env) } := by
        simp only [step, hq]
      rw [hs]
      rcases h with h | ⟨inv, h1, h2, h3, h4⟩
      · exact Or.inl h
      · refine Or.inr ⟨inv, h1, ?_, h3, h4⟩
        show (applyEffects w.app (sendMessage w.render content env)).isSending = true
        rw [refused_send_keeps_isSending _ _ _ _ hq, h2]
    | some q =>
      have ha : Accepted w.render content q := acceptedQuestion_eq_some.mp hq
      have hfalse : w.app.isSending = false := ha.2.2.1
      have hnil : w.running = [] := by
        rcases h with h | ⟨inv, -, h2, -, -⟩
        · exact h
        · rw [hfalse] at h2; cases h2
      have hshape := laterSegments_shape w.render env
      refine Or.inr ⟨Invocation.mk env.controller
          (catchBlock w.render (assistantMessageIdOf env.assistantClock) env.errorClock
            abortError ++ finallyBlock)
          (laterSegments w.render env), ?_, ?_, hshape.1, hshape.2⟩
      · simp only [step, hq, hnil, List.nil_append]
      · simp only [step, hq]
        rfl
  | resume i =>
    rcases h with h | ⟨inv, h1, h2, h3, h4⟩
    · have hs : step w (Event.resume i) = w := by
        simp only [step, h, List.getElem?_nil]
      rw [hs]; exact Or.inl h
    · cases i with
      | succ j =>
        have hs : step w (Event.resume (j + 1)) = w := by
          simp only [step, h1, List.getElem?_cons_succ, List.getElem?_nil]
        rw [hs]; exact Or.inr ⟨inv, h1, h2, h3, h4⟩
      | zero =>
        cases hseg : inv.segments with
        | nil => exact absurd hseg h3
        | cons segment rest =>
          by_cases hrest : rest = []
          · refine Or.inl ?_
            simp only [step, h1, List.getElem?_cons_zero, hseg, hrest, if_true,
              List.eraseIdx_cons_zero]
          · have hdrop : (segment :: rest).dropLast = segment :: rest.dropLast := by
              cases rest with
              | nil => exact absurd rfl hrest
              | cons a rest => rfl
            rw [hseg, hdrop] at h4
            refine Or.inr ⟨{ inv with segments := rest }, ?_, ?_, hrest, ?_⟩
            · simp only [step, h1, List.getElem?_cons_zero, hseg, hrest, if_false,
                List.set_cons_zero]
            · simp only [step, h1, List.getElem?_cons_zero, hseg]
              rw [h4 segment (List.mem_cons_self _ _), h2]
            · intro s hs
              exact h4 s (List.mem_cons_of_mem _ hs)

theorem run_keeps_one_session (events : List Event) :
    ∀ w : World, noStop events → OneSession w → OneSession (run w events) := by
  induction events with
  | nil => intro w _ h; exact h
  | cons e events ih =>
    intro w hn h
    have he : e ≠ Event.stop := hn e (List.mem_cons_self _ _)
    have hn' : noStop events := fun x hx => hn x (List.mem_cons_of_mem _ hx)
    exact ih (step w e) hn' (step_keeps_one_session w e he h)

/-- C12, counterexample: a first call is accepted and its first chunk is
flushed, so that the call waits at the pause of line 939; `stopGeneration` is
called; a second call is accepted at once. The first call has not yet run its
`catch` and `finally`, so two calls are in flight; when the first is then
resumed, its `finally` clears `isSending` while the second is still in
flight. -/
theorem single_session_counterexample :
    ((run World.initial
        [Event.send (SendArg.text (lit "Summarize")) firstEnv, Event.resume 0, Event.stop,
         Event.send (SendArg.text (lit "Again")) secondEnv]).running.map
        (fun inv => inv.controller)) = [1, 2] ∧
    (run World.initial
        [Event.send (SendArg.text (lit "Summarize")) firstEnv, Event.resume 0, Event.stop,
         Event.send (SendArg.text (lit "Again")) secondEnv, Event.resume 0]).app.isSending
      = false ∧
    ((run World.initial
        [Event.send (SendArg.text (lit "Summarize")) firstEnv, Event.resume 0, Event.stop,
         Event.send (SendArg.text (lit "Again")) secondEnv, Event.resume 0]).running.map
        (fun inv => inv.controller)) = [2] := by
  decide

/-- C12, amended: in every state reached from a state with no call in flight
by calls of `sendMessage`, chunk arrivals and stream terminations, with no
call of `stopGeneration`, at most one call is in flight. `stopGeneration`
clears `isSending` at once, without waiting for the call in flight: right
after it, a call with a non-blank question and a selected document is
accepted, whatever is still in flight. -/
theorem single_session_without_stop (w : World) (events : List Event) :
    (w.running = [] → noStop events → (run w events).running.length ≤ 1) ∧
    ∀ (content : SendArg) (q : JSString) (env : SendEnv),
      messageContentOf content w.app.input = some q → trim q ≠ [] → w.selectedPdf ≠ [] →
      (step (step w Event.stop) (Event.send content env)).running.length
        = w.running.length + 1 := by
  refine ⟨?_, ?_⟩
  · intro hnil hn
    rcases run_keeps_one_session events w hn (Or.inl hnil) with h | ⟨inv, h, -⟩
    · simp [h]
    · simp [h]
  · intro content q env hq ht hp
    have ha : Accepted (step w Event.stop).render content q := by
      refine ⟨?_, ht, ?_, fun hc => hp hc.1⟩
      · have : (step w Event.stop).render.input = w.app.input := by
          cases hc : w.app.abortController <;> simp [step, World.render, stopGeneration, hc,
            applyEffects, applyEffect]
        rw [this]; exact hq
      · cases hc : w.app.abortController <;> simp [step, World.render, stopGeneration, hc,
          applyEffects, applyEffect]
    have hq' := acceptedQuestion_eq_some.mpr ha
    have hs : (step (step w Event.stop) (Event.send content env)).running
        = (step w Event.stop).running ++
          [{ controller := env.controller,
             whenAborted :=
               catchBlock (step w Event.stop).render (assistantMessageIdOf env.assistantClock)
                 env.errorClock abortError ++ finallyBlock,
             segments := laterSegments (step w Event.stop).render env }] := by
      generalize step w Event.stop = w' at hq'
      simp only [step, hq']
    rw [hs]
    simp [step]

/-- From the mounted component, a call that runs to its end and a second call
after it: never more than one call in flight. And a call right after
`stopGeneration` is accepted. -/
theorem single_session_without_stop_witness :
    World.initial.running = [] ∧
    noStop [Event.send (SendArg.text (lit "Summarize")) firstEnv, Event.resume 0,
      Event.resume 0, Event.resume 0, Event.send (SendArg.text (lit "Again")) secondEnv] ∧
    (run World.initial
      [Event.send (SendArg.text (lit "Summarize")) firstEnv, Event.resume 0,
       Event.resume 0, Event.resume 0,
       Event.send (SendArg.text (lit "Again")) secondEnv]).running.length ≤ 1 :=
  ⟨rfl, by intro e he; fin_cases he <;> simp,
   (single_session_without_stop World.initial
      [Event.send (SendArg.text (lit "Summarize")) firstEnv, Event.resume 0,
       Event.resume 0, Event.resume 0,
       Event.send (SendArg.text (lit "Again")) secondEnv]).1 rfl
     (by intro e he; fin_cases he <;> simp)⟩

/-! ## The start of a call and its refusals -/

/-- The log after an accepted call whose `try` dispatches nothing and throws a
value that is not an `AbortError`. -/
theorem log_of_failed_try (r : Render) (content : SendArg) (q : JSString) (env : SendEnv)
    (st : AppState) (e : JSError) (h : Accepted r content q)
    (ht : tryBlock (assistantMessageIdOf env.assistantClock) env.fetched = ([], some e))
    (hne : e.name ≠ lit "AbortError") :
    (applyEffects st (sendMessage r content env)).messageState
      = st.messageState ++ [userTurn env.userClock q, errorTurn env.errorClock e] := by
  rw [sendMessage_of_accepted h, applyEffects_messageState, dispatched_acceptedSend]
  simp only [ht, dispatched_catchBlock_error _ _ _ _ hne]
  simp [messageReducer, userTurn, List.dropLast_append_cons]

theorem tryBlock_not_ok (id : JSString) (status : Nat) (start : Int)
    (reads : List (List Nat × Int)) (ending : StreamEnd) (hok : responseOk status = false) :
    tryBlock id (FetchOutcome.response status start reads ending)
      = ([], some (notOkError status)) := by
  simp only [tryBlock, hok, Bool.not_false, if_true, notOkError]
  split <;> simp_all

/-- C21: an accepted call first makes the effects of lines 844-864 and only
then sends the request: before the request it has dispatched exactly two
actions, which append a user turn holding the question as given and an
assistant turn with empty content, and it has set `isSending` to true and
`streamingMessageId` to the id of that assistant turn. -/
theorem accepted_send_appends_two_turns (r : Render) (content : SendArg) (q : JSString)
    (env : SendEnv) (st : AppState) (h : Accepted r content q) :
    sendMessage r content env
      = (startOfSend r q env).dropLast ++ [Effect.fetchAsk q r.selectedPdf]
        ++ (laterSegments r env).flatten ∧
    (∀ question documentId,
      Effect.fetchAsk question documentId ∉ (startOfSend r q env).dropLast) ∧
    dispatched (startOfSend r q env).dropLast
      = [Action.addMessage { id := userMessageIdOf env.userClock, role := lit "user",
                             content := q, error := false },
         Action.addMessage { id := assistantMessageIdOf env.assistantClock,
                             role := lit "assistant", content := [], error := false }] ∧
    (applyEffects st (startOfSend r q env).dropLast).messageState
      = st.messageState ++
        [{ id := userMessageIdOf env.userClock, role := lit "user", content := q,
           error := false },
         { id := assistantMessageIdOf env.assistantClock, role := lit "assistant",
           content := [], error := false }] ∧
    (applyEffects st (startOfSend r q env).dropLast).isSending = true ∧
    (applyEffects st (startOfSend r q env).dropLast).streamingMessageId
      = some (assistantMessageIdOf env.assistantClock) := by
  refine ⟨?_, ?_, rfl, ?_, rfl, rfl⟩
  · rw [sendMessage_of_accepted h, acceptedSend_eq_segments]
    rfl
  · intro question documentId hmem
    simp [startOfSend] at hmem
  · simp [startOfSend, applyEffects, applyEffect, messageReducer, userTurn, assistantTurn]

/-- The quick action `Summarize` at the welcome render. -/
theorem accepted_send_appends_two_turns_witness :
    Accepted (welcomeRender []) (SendArg.text (lit "Please summarize this document"))
      (lit "Please summarize this document") ∧
    (applyEffects (AppState.ofRender (welcomeRender []))
        (startOfSend (welcomeRender []) (lit "Please summarize this document")
          (envWith (FetchOutcome.response 200 1001 [] StreamEnd.done))).dropLast).isSending
      = true :=
  ⟨by decide,
   (accepted_send_appends_two_turns (welcomeRender [])
      (SendArg.text (lit "Please summarize this document"))
      (lit "Please summarize this document")
      (envWith (FetchOutcome.response 200 1001 [] StreamEnd.done))
      (AppState.ofRender (welcomeRender [])) (by decide)).2.2.2.2.1⟩

/-- C22: for a response that is not ok, the turn that an accepted call leaves
at the end of the log is an error turn whose content is the mark followed by
`Document not found. Please reselect.` if and only if the status is 404, and
the mark followed by `Failed to get response` for every other status. -/
theorem not_found_reported_distinctly (r : Render) (content : SendArg) (q : JSString)
    (env : SendEnv) (st : AppState) (status : Nat) (start : Int)
    (reads : List (List Nat × Int)) (ending : StreamEnd)
    (h : Accepted r content q)
    (hf : env.fetched = FetchOutcome.response status start reads ending)
    (hok : responseOk status = false) :
    ∃ turn : Message,
      (applyEffects st (sendMessage r content env)).messageState
        = st.messageState ++ [userTurn env.userClock q, turn] ∧
      turn.error = true ∧
      (turn.content = lit "❌ Document not found. Please reselect." ↔ status = 404) ∧
      (status ≠ 404 → turn.content = lit "❌ Failed to get response") := by
  have ht := tryBlock_not_ok (assistantMessageIdOf env.assistantClock) status start reads
    ending hok
  rw [← hf] at ht
  have hname : (notOkError status).name ≠ lit "AbortError" := by
    show lit "Error" ≠ lit "AbortError"
    decide
  have hc404 : status = 404 → (errorTurn env.errorClock (notOkError status)).content
      = lit "❌ Document not found. Please reselect." := by
    intro h404
    have hm : (errorTurn env.errorClock (notOkError status)).content
        = lit "❌ " ++ lit "Document not found. Please reselect." := by
      simp only [errorTurn, notOkError, h404, if_true, JSError.ofMessage]
      rfl
    rw [hm]; decide
  have hcother : status ≠ 404 → (errorTurn env.errorClock (notOkError status)).content
      = lit "❌ Failed to get response" := by
    intro h404
    have hm : (errorTurn env.errorClock (notOkError status)).content
        = lit "❌ " ++ lit "Failed to get response" := by
      simp only [errorTurn, notOkError, h404, if_false, JSError.ofMessage]
      rfl
    rw [hm]; decide
  refine ⟨errorTurn env.errorClock (notOkError status),
    log_of_failed_try r content q env st _ h ht hname, rfl, ?_, hcother⟩
  constructor
  · intro hcontent
    by_contra h404
    rw [hcother h404] at hcontent
    revert hcontent
    decide
  · exact hc404

/-- The statuses 404 and 500 at the welcome render. -/
theorem not_found_reported_distinctly_witness :
    Accepted (welcomeRender []) (SendArg.text (lit "Summarize")) (lit "Summarize") ∧
    responseOk 500 = false ∧
    ∃ turn : Message,
      (applyEffects (AppState.ofRender (welcomeRender []))
          (sendMessage (welcomeRender []) (SendArg.text (lit "Summarize"))
            (envWith (FetchOutcome.response 500 0 [] StreamEnd.done)))).messageState
        = (AppState.ofRender (welcomeRender [])).messageState
            ++ [userTurn 1000 (lit "Summarize"), turn] ∧
      turn.error = true ∧
      (turn.content = lit "❌ Document not found. Please reselect." ↔ 500 = 404) ∧
      (500 ≠ 404 → turn.content = lit "❌ Failed to get response") :=
  ⟨by decide, by decide,
   not_found_reported_distinctly (welcomeRender []) (SendArg.text (lit "Summarize"))
     (lit "Summarize") (envWith (FetchOutcome.response 500 0 [] StreamEnd.done))
     (AppState.ofRender (welcomeRender [])) 500 0 [] StreamEnd.done (by decide) rfl
     (by decide)⟩

/-- C30: a call with a non-blank question made while `isSending` is false
dispatches nothing, so that the log stays as it is, if and only if no document
is selected while the list of documents is not empty; when the list is empty
the call is accepted and sends the request with `selectedPdf` as
`document_id`, which is the empty string when no document is selected. -/
theorem refused_iff_no_document_selected (r : Render) (content : SendArg) (q : JSString)
    (env : SendEnv) (st : AppState)
    (hq : messageContentOf content r.input = some q) (ht : trim q ≠ [])
    (hs : r.isSending = false) :
    (dispatched (sendMessage r content env) = [] ↔
      r.selectedPdf = [] ∧ r.documentsLength > 0) ∧
    (r.selectedPdf = [] ∧ r.documentsLength > 0 →
      sendMessage r content env
          = [Effect.addToast (lit "Please select a PDF document first") (lit "error")] ∧
        (applyEffects st (sendMessage r content env)).messageState = st.messageState) ∧
    (r.documentsLength = 0 →
      Accepted r content q ∧
      Effect.fetchAsk q r.selectedPdf ∈ sendMessage r content env ∧
      (r.selectedPdf = [] → Effect.fetchAsk q [] ∈ sendMessage r content env)) := by
  have hrefuse : r.selectedPdf = [] ∧ r.documentsLength > 0 →
      sendMessage r content env
        = [Effect.addToast (lit "Please select a PDF document first") (lit "error")] := by
    intro hc
    simp [sendMessage, hq, ht, hs, hc]
  have haccept : ¬ (r.selectedPdf = [] ∧ r.documentsLength > 0) → Accepted r content q :=
    fun hc => ⟨hq, ht, hs, hc⟩
  have hfetch : Accepted r content q →
      Effect.fetchAsk q r.selectedPdf ∈ sendMessage r content env := by
    intro ha
    rw [sendMessage_of_accepted ha]
    simp [acceptedSend]
  refine ⟨⟨?_, ?_⟩, ?_, ?_⟩
  · intro hd
    by_contra hc
    rw [sendMessage_of_accepted (haccept hc), dispatched_acceptedSend] at hd
    simp at hd
  · intro hc
    rw [hrefuse hc]
    rfl
  · intro hc
    refine ⟨hrefuse hc, ?_⟩
    rw [hrefuse hc]
    rfl
  · intro hdocs
    have hc : ¬ (r.selectedPdf = [] ∧ r.documentsLength > 0) := by
      rintro ⟨-, hpos⟩
      omega
    refine ⟨haccept hc, hfetch (haccept hc), ?_⟩
    intro hsel
    have := hfetch (haccept hc)
    rwa [hsel] at this

/-- A quick action while no document is listed: the request is sent with an
empty `document_id`. -/
theorem refused_iff_no_document_selected_witness :
    messageContentOf (SendArg.text (lit "Give me a quick overview"))
        ({ welcomeRender [] with selectedPdf := [], documentsLength := 0 } : Render).input
      = some (lit "Give me a quick overview") ∧
    trim (lit "Give me a quick overview") ≠ [] ∧
    Effect.fetchAsk (lit "Give me a quick overview") []
      ∈ sendMessage { welcomeRender [] with selectedPdf := [], documentsLength := 0 }
          (SendArg.text (lit "Give me a quick overview"))
          (envWith (FetchOutcome.response 404 0 [] StreamEnd.done)) :=
  ⟨by decide, by decide,
   ((refused_iff_no_document_selected
      { welcomeRender [] with selectedPdf := [], documentsLength := 0 }
      (SendArg.text (lit "Give me a quick overview")) (lit "Give me a quick overview")
      (envWith (FetchOutcome.response 404 0 [] StreamEnd.done))
      (AppState.ofRender (welcomeRender [])) (by decide) (by decide) rfl).2.2 rfl).2.2 rfl⟩

/-! ## `stopGeneration` -/

/-- C23, counterexample: at the mounted component no session is active, and
`stopGeneration` still raises the notification `Generation stopped`, so the
state after it is not the state before it. -/
theorem stop_without_session_counterexample :
    NoSession (AppState.ofRender (welcomeRender [])) ∧
    (applyEffects (AppState.ofRender (welcomeRender []))
        (stopGeneration (AppState.ofRender (welcomeRender [])).abortController)).toasts
      = [(lit "Generation stopped", lit "info")] ∧
    applyEffects (AppState.ofRender (welcomeRender []))
        (stopGeneration (AppState.ofRender (welcomeRender [])).abortController)
      ≠ AppState.ofRender (welcomeRender []) := by
  refine ⟨⟨rfl, rfl, rfl⟩, rfl, ?_⟩
  intro h
  have ht := congrArg AppState.toasts h
  revert ht
  decide

/-- C23, amended: when no session is active, `stopGeneration` aborts nothing
and leaves the log, the input, `isSending`, `streamingMessageId` and the abort
handle as they are; the one thing it changes is the list of notifications, to
which it adds `Generation stopped` of type `info`. -/
theorem stop_without_session (st : AppState) (h : NoSession st) :
    (∀ controller, Effect.abort controller ∉ stopGeneration st.abortController) ∧
    applyEffects st (stopGeneration st.abortController)
      = { st with toasts := st.toasts ++ [(lit "Generation stopped", lit "info")] } := by
  obtain ⟨h1, h2, h3⟩ := h
  refine ⟨?_, ?_⟩
  · intro controller hmem
    simp [stopGeneration, h1] at hmem
  · cases st
    simp only at h1 h2 h3
    subst h1 h2 h3
    rfl

/-- The mounted component: only the notification is added. -/
theorem stop_without_session_witness :
    NoSession (AppState.ofRender (welcomeRender [])) ∧
    applyEffects (AppState.ofRender (welcomeRender []))
        (stopGeneration (AppState.ofRender (welcomeRender [])).abortController)
      = { AppState.ofRender (welcomeRender []) with
          toasts := (AppState.ofRender (welcomeRender [])).toasts
            ++ [(lit "Generation stopped", lit "info")] } :=
  ⟨⟨rfl, rfl, rfl⟩,
   (stop_without_session (AppState.ofRender (welcomeRender [])) ⟨rfl, rfl, rfl⟩).2⟩

/-! ## One iteration of the read loop -/

/-- C25: on an eligible flush the new assembled text is the old one followed
by the whole buffer, exactly one `UPDATE_MESSAGE_BY_ID` with the id of the
assistant turn and the new assembled text is dispatched, the buffer becomes
empty, the time of the last update becomes the current time and `inWord`
becomes false. -/
theorem eligible_flush_effects (id : JSString) (s : LoopState) (chunk : JSString) (now : Int)
    (h : shouldFlush (s.buffer ++ chunk) s.inWord (now - s.lastUpdateTime) = true) :
    (onChunk id s chunk now).1.fullText = s.fullText ++ (s.buffer ++ chunk) ∧
    (onChunk id s chunk now).2
      = [Action.updateMessageById id (s.fullText ++ (s.buffer ++ chunk))] ∧
    (onChunk id s chunk now).1.buffer = [] ∧
    (onChunk id s chunk now).1.lastUpdateTime = now ∧
    (onChunk id s chunk now).1.inWord = false := by
  simp [onChunk, h]

/-- The chunk `Hello. ` arriving 30 ms after the last update is flushed. -/
theorem eligible_flush_effects_witness :
    shouldFlush ((LoopState.start 1000).buffer ++ lit "Hello. ") (LoopState.start 1000).inWord
        (1030 - (LoopState.start 1000).lastUpdateTime) = true ∧
    (onChunk (assistantMessageIdOf 1000) (LoopState.start 1000) (lit "Hello. ") 1030).2
      = [Action.updateMessageById (assistantMessageIdOf 1000)
          ((LoopState.start 1000).fullText
            ++ ((LoopState.start 1000).buffer ++ lit "Hello. "))] :=
  ⟨by decide,
   (eligible_flush_effects (assistantMessageIdOf 1000) (LoopState.start 1000)
      (lit "Hello. ") 1030 (by decide)).2.1⟩

/-- C26, the code against the comment of lines 918-921: each of the three
conditions of the comment holds alone and nothing is dispatched. The time
threshold is reached but the buffer `The doc` has no break; the buffer
`Hello.` ends a sentence but only 10 ms have elapsed; the buffer
`The document is ` is longer than 15 but only 10 ms have elapsed. -/
theorem update_needs_time_and_break :
    (onChunk (assistantMessageIdOf 1000) (LoopState.start 1000) (lit "The doc") 1100).2 = [] ∧
    (onChunk (assistantMessageIdOf 1000) (LoopState.start 1000) (lit "Hello.") 1010).2 = [] ∧
    (onChunk (assistantMessageIdOf 1000) (LoopState.start 1000) (lit "The document is ")
        1010).2 = [] ∧
    decide ((1100 : Int) - 1000 ≥ UPDATE_INTERVAL) = true ∧
    testSentenceBreak (lit "Hello.") = true ∧
    decide ((lit "The document is ").length > 15) = true := by
  decide

/-- C27: after an iteration in which at least 30 ms had elapsed since the
last flush, the buffer holds at most 15 code units, and it is empty when the
iteration flushed. -/
theorem buffer_bounded_after_interval (id : JSString) (s : LoopState) (chunk : JSString)
    (now : Int) (h : now - s.lastUpdateTime ≥ 30) :
    (onChunk id s chunk now).1.buffer.length ≤ 15 ∧
    (flushed (onChunk id s chunk now) = true → (onChunk id s chunk now).1.buffer = []) ∧
    ∀ value : List Nat, (onValue id s value now).1.buffer.length ≤ 15 := by
  have key : ∀ (s' : LoopState) (c : JSString), s'.lastUpdateTime = s.lastUpdateTime →
      (onChunk id s' c now).1.buffer.length ≤ 15 := by
    intro s' c hl
    by_cases hf : shouldFlush (s'.buffer ++ c) s'.inWord (now - s'.lastUpdateTime) = true
    · simp [onChunk, hf]
    · have hlen : ¬ (s'.buffer ++ c).length > 15 := by
        intro hgt
        apply hf
        have ht : now - s'.lastUpdateTime ≥ UPDATE_INTERVAL := by
          rw [hl]; exact h
        simp only [shouldFlush, hasNaturalBreak, Bool.and_eq_true, Bool.or_eq_true,
          decide_eq_true_eq]
        exact ⟨ht, Or.inr hgt⟩
      have hb : (onChunk id s' c now).1.buffer = s'.buffer ++ c := by
        simp [onChunk, hf]
      rw [hb]
      omega
  refine ⟨key s chunk rfl, ?_, ?_⟩
  · intro hfl
    simp only [flushed, Bool.and_eq_true, List.isEmpty_iff] at hfl
    exact hfl.2
  · intro value
    exact key { s with decoder := (decodeStream s.decoder value).1 }
      (decodeStream s.decoder value).2 rfl

/-- Seven code units after 100 ms: they stay in the buffer. -/
theorem buffer_bounded_after_interval_witness :
    (1100 : Int) - (LoopState.start 1000).lastUpdateTime ≥ 30 ∧
    (onChunk (assistantMessageIdOf 1000) (LoopState.start 1000) (lit "The doc")
      1100).1.buffer.length ≤ 15 :=
  ⟨by decide,
   (buffer_bounded_after_interval (assistantMessageIdOf 1000) (LoopState.start 1000)
      (lit "The doc") 1100 (by decide)).1⟩

/-- C28: the end-of-word condition `/\s$/.test(buffer) && inWord` of an
iteration that follows the iteration `onChunk id s previous now` holds if and
only if the buffer now ends in white space and the previous iteration did not
flush and left a buffer that is not empty and ends in a character that is not
white space; `inWord` is false at the first iteration and after every
flush. -/
theorem end_of_word_depends_on_previous (id : JSString) (s : LoopState)
    (previous chunk : JSString) (now start : Int) :
    ((testEndsInSpace ((onChunk id s previous now).1.buffer ++ chunk)
          && (onChunk id s previous now).1.inWord) = true ↔
      testEndsInSpace ((onChunk id s previous now).1.buffer ++ chunk) = true ∧
      flushed (onChunk id s previous now) = false ∧
      (onChunk id s previous now).1.buffer ≠ [] ∧
      testEndsInSpace (onChunk id s previous now).1.buffer = false) ∧
    (LoopState.start start).inWord = false ∧
    (testEndsInSpace ((LoopState.start start).buffer ++ chunk)
      && (LoopState.start start).inWord) = false ∧
    (flushed (onChunk id s previous now) = true →
      (onChunk id s previous now).1.inWord = false) := by
  by_cases hf : shouldFlush (s.buffer ++ previous) s.inWord (now - s.lastUpdateTime) = true
  · have hfl : flushed (onChunk id s previous now) = true := by
      simp [flushed, onChunk, hf]
    have hw : (onChunk id s previous now).1.inWord = false := by
      simp [onChunk, hf]
    refine ⟨?_, rfl, by simp [LoopState.start], fun _ => hw⟩
    rw [hw, hfl]
    simp
  · have hfl : flushed (onChunk id s previous now) = false := by
      simp [flushed, onChunk, hf]
    have hb : (onChunk id s previous now).1.buffer = s.buffer ++ previous := by
      simp [onChunk, hf]
    have hw : (onChunk id s previous now).1.inWord
        = (decide ((s.buffer ++ previous).length > 0)
            && !testEndsInSpace (s.buffer ++ previous)) := by
      simp [onChunk, hf]
    refine ⟨?_, rfl, by simp [LoopState.start], fun hc => by rw [hfl] at hc; cases hc⟩
    rw [hw, hb]
    simp only [Bool.and_eq_true, decide_eq_true_eq, Bool.not_eq_true', hfl, true_and, ne_eq]
    constructor
    · rintro ⟨h1, h2, h3⟩
      exact ⟨h1, fun hnil => by rw [hnil] at h2; simp at h2, h3⟩
    · rintro ⟨h1, h2, h3⟩
      exact ⟨h1, List.length_pos.mpr h2, h3⟩

/-! ## The scenario of three chunks -/

theorem onValue_of_decoded (id : JSString) (s : LoopState) (value : List Nat) (now : Int)
    (d : Utf8State) (text : JSString) (hd : decodeStream s.decoder value = (d, text)) :
    onValue id s value now = onChunk id { s with decoder := d } text now := by
  simp [onValue, hd]

/-- Three reads of which the first has no break, the second brings a break
and the third too: the loop dispatches a flush if and only if the second or
the third read comes at least 30 ms after the loop started. -/
theorem three_reads_flush_iff (id : JSString) (t0 t1 t2 t3 : Int)
    (d0 d1 d2 d3 : Utf8State) (b1 b2 b3 : List Nat) (c1 c2 c3 : JSString)
    (hd1 : decodeStream d0 b1 = (d1, c1)) (hd2 : decodeStream d1 b2 = (d2, c2))
    (hd3 : decodeStream d2 b3 = (d3, c3))
    (hb1 : hasNaturalBreak c1 false = false)
    (hw1 : (decide (c1.length > 0) && !testEndsInSpace c1) = true)
    (hb2 : hasNaturalBreak (c1 ++ c2) true = true)
    (hw2 : (decide ((c1 ++ c2).length > 0) && !testEndsInSpace (c1 ++ c2)) = false)
    (hb3 : hasNaturalBreak (c1 ++ c2 ++ c3) false = true) :
    (readLoop id { fullText := [], buffer := [], lastUpdateTime := t0, inWord := false,
                   decoder := d0 } [(b1, t1), (b2, t2), (b3, t3)]).2 ≠ [] ↔
      t2 - t0 ≥ 30 ∨ t3 - t0 ≥ 30 := by
  have h1 : onValue id { fullText := [], buffer := [], lastUpdateTime := t0, inWord := false,
                         decoder := d0 } b1 t1
      = ({ fullText := [], buffer := c1, lastUpdateTime := t0, inWord := true,
           decoder := d1 }, []) := by
    rw [onValue_of_decoded id _ _ _ d1 c1 hd1]
    simp only [onChunk, List.nil_append, shouldFlush, hb1, Bool.and_false, Bool.false_eq_true,
      if_false, hw1]
  have h2 : onValue id { fullText := [], buffer := c1, lastUpdateTime := t0, inWord := true,
                         decoder := d1 } b2 t2
      = if t2 - t0 ≥ 30 then
          ({ fullText := c1 ++ c2, buffer := [], lastUpdateTime := t2, inWord := false,
             decoder := d2 }, [Action.updateMessageById id (c1 ++ c2)])
        else
          ({ fullText := [], buffer := c1 ++ c2, lastUpdateTime := t0, inWord := false,
             decoder := d2 }, []) := by
    rw [onValue_of_decoded id _ _ _ d2 c2 hd2]
    by_cases hA : t2 - t0 ≥ 30
    · simp only [onChunk, shouldFlush, hb2, UPDATE_INTERVAL, hA, decide_True, Bool.and_self,
        if_true, List.nil_append]
    · simp only [onChunk, shouldFlush, hb2, UPDATE_INTERVAL, hA, decide_False, Bool.false_and,
        Bool.false_eq_true, if_false, hw2]
  have h3 : (onValue id { fullText := [], buffer := c1 ++ c2, lastUpdateTime := t0,
                          inWord := false, decoder := d2 } b3 t3).2 ≠ [] ↔ t3 - t0 ≥ 30 := by
    rw [onValue_of_decoded id _ _ _ d3 c3 hd3]
    by_cases hB : t3 - t0 ≥ 30
    · simp only [onChunk, shouldFlush, hb3, UPDATE_INTERVAL, hB, decide_True, Bool.and_self,
        if_true, ne_eq, List.cons_ne_nil, not_false_eq_true]
    · simp only [onChunk, shouldFlush, hb3, UPDATE_INTERVAL, hB, decide_False,
        Bool.false_and, Bool.false_eq_true, if_false, ne_eq, not_true_eq_false]
  simp only [readLoop, h1, List.nil_append, List.append_nil]
  rw [h2]
  by_cases hA : t2 - t0 ≥ 30
  · simp only [hA, if_true, true_or, iff_true, List.cons_append, ne_eq, List.cons_ne_nil,
      not_false_eq_true]
  · simp only [hA, if_false, false_or, List.nil_append]
    exact h3

/-- In the scenario of three chunks the loop dispatches a flush if and only if
the second or the third chunk arrives at least 30 ms after the loop
started. -/
theorem catsReads_flush_iff (id : JSString) (t0 t1 t2 t3 : Int) :
    (readLoop id (LoopState.start t0) (catsReads t1 t2 t3)).2 ≠ [] ↔
      t2 - t0 ≥ 30 ∨ t3 - t0 ≥ 30 :=
  three_reads_flush_iff id t0 t1 t2 t3 Utf8State.init
    { Utf8State.init with bomSeen := true } { Utf8State.init with bomSeen := true }
    { Utf8State.init with bomSeen := true }
    (bytesOf "The doc") (bytesOf "ument is ") (bytesOf "about cats.\n")
    (lit "The doc") (lit "ument is ") (lit "about cats.\n")
    (by decide) (by decide) (by decide) (by decide) (by decide) (by decide) (by decide)
    (by decide)

/-- C24, the code at the failing input: the three chunks arrive 4, 9 and 14 ms
after the loop started. After the second chunk the buffer is longer than 15,
and after the third it ends a sentence, which the comment of lines 918-925
lists as reasons to update on their own; yet the loop dispatches nothing, the
whole sentence is still in the buffer when end-of-stream is reached, and the
only updates are the two dispatched at end-of-stream. -/
theorem three_chunks_no_flush_before_end :
    (readLoop (assistantMessageIdOf 1000) (LoopState.start 1001)
        (catsReads 1005 1010 1015)).2 = [] ∧
    (readLoop (assistantMessageIdOf 1000) (LoopState.start 1001)
        (catsReads 1005 1010 1015)).1.buffer = lit "The document is about cats.\n" ∧
    decide ((lit "The document is ").length > 15) = true ∧
    testSentenceBreak (lit "The document is about cats.\n") = true ∧
    updateContents (assistantMessageIdOf 1000)
        (dispatched (sendMessage (welcomeRender []) (SendArg.text (lit "Summarize"))
          (envWith (FetchOutcome.response 200 1001 (catsReads 1005 1010 1015)
            StreamEnd.done))))
      = [lit "The document is about cats.\n", lit "The document is about cats.\n"] := by
  decide

/-- What the code does in the scenario of three chunks, for every timing: the
final content is the whole sentence, and the loop dispatches a flush exactly
when the second or the third chunk arrives at least 30 ms after the loop
started. -/
theorem catsReads_outcome (r : Render) (content : SendArg) (q : JSString) (env : SendEnv)
    (status : Nat) (t0 t1 t2 t3 : Int)
    (h : Accepted r content q)
    (hf : env.fetched
      = FetchOutcome.response status t0 (catsReads t1 t2 t3) StreamEnd.done)
    (hok : responseOk status = true) :
    (updateContents (assistantMessageIdOf env.assistantClock)
        (dispatched (sendMessage r content env))).getLast?
      = some (lit "The document is about cats.\n") ∧
    ((readLoop (assistantMessageIdOf env.assistantClock) (LoopState.start t0)
        (catsReads t1 t2 t3)).2 ≠ [] ↔ t2 - t0 ≥ 30 ∨ t3 - t0 ≥ 30) := by
  obtain ⟨pre, h1, -, -⟩ := contents_of_done h hf hok
  refine ⟨?_, catsReads_flush_iff _ t0 t1 t2 t3⟩
  rw [h1, List.getLast?_concat]
  have hc : (decodeChunks Utf8State.init ((catsReads t1 t2 t3).map Prod.fst)).flatten
      = lit "The document is about cats.\n" := by
    simp only [catsReads, List.map_cons, List.map_nil]
    decide
  rw [hc]

/-! ## File upload -/

/-- C29: `handleFileUpload` rejects a file if and only if its name does not
end with `.pdf` or its size is greater than 50 * 1024 * 1024; the name is
checked first, so that a file failing both tests gets the message about the
name; a file named with `.pdf` of exactly 52428800 bytes is sent. -/
theorem upload_rejected_iff (file : UploadFile) (outcome : UploadOutcome)
    (hasFileInput : Bool) :
    (uploadRejected (handleFileUpload (some file) outcome hasFileInput) ↔
      endsWith file.name (lit ".pdf") = false ∨ file.size > 50 * 1024 * 1024) ∧
    (endsWith file.name (lit ".pdf") = false →
      handleFileUpload (some file) outcome hasFileInput
        = [UploadEffect.setUploadError none,
           UploadEffect.setUploadError (some (lit "Only PDF files are allowed")),
           UploadEffect.addToast (lit "Only PDF files are allowed") (lit "error")]) ∧
    (endsWith file.name (lit ".pdf") = true → file.size > 50 * 1024 * 1024 →
      handleFileUpload (some file) outcome hasFileInput
        = [UploadEffect.setUploadError none,
           UploadEffect.setUploadError (some (lit "File too large (max 50MB)")),
           UploadEffect.addToast (lit "File too large (max 50MB)") (lit "error")]) ∧
    (endsWith file.name (lit ".pdf") = true → file.size = 52428800 →
      UploadEffect.postUpload file ∈ handleFileUpload (some file) outcome hasFileInput) := by
  have hname : endsWith file.name (lit ".pdf") = false →
      handleFileUpload (some file) outcome hasFileInput
        = [UploadEffect.setUploadError none,
           UploadEffect.setUploadError (some (lit "Only PDF files are allowed")),
           UploadEffect.addToast (lit "Only PDF files are allowed") (lit "error")] := by
    intro hn
    simp only [handleFileUpload, hn, Bool.not_false, if_true]
  have hsize : endsWith file.name (lit ".pdf") = true → file.size > 50 * 1024 * 1024 →
      handleFileUpload (some file) outcome hasFileInput
        = [UploadEffect.setUploadError none,
           UploadEffect.setUploadError (some (lit "File too large (max 50MB)")),
           UploadEffect.addToast (lit "File too large (max 50MB)") (lit "error")] := by
    intro hn hs
    simp only [handleFileUpload, hn, Bool.not_true, Bool.false_eq_true, if_false, hs, if_true]
  have hsent : endsWith file.name (lit ".pdf") = true → ¬ file.size > 50 * 1024 * 1024 →
      UploadEffect.postUpload file ∈ handleFileUpload (some file) outcome hasFileInput := by
    intro hn hs
    simp only [handleFileUpload, hn, Bool.not_true, Bool.false_eq_true, if_false, hs]
    simp
  refine ⟨⟨?_, ?_⟩, hname, hsize, ?_⟩
  · intro hr
    by_contra hc
    push_neg at hc
    have hn : endsWith file.name (lit ".pdf") = true := by simpa using hc.1
    exact hr.2 file (hsent hn (by omega))
  · intro hc
    by_cases hn : endsWith file.name (lit ".pdf") = false
    · rw [hname hn]
      exact ⟨⟨lit "Only PDF files are allowed", by simp⟩, by simp⟩
    · have hn' : endsWith file.name (lit ".pdf") = true := by simpa using hn
      have hs : file.size > 50 * 1024 * 1024 := by
        rcases hc with hc | hc
        · exact absurd hc hn
        · exact hc
      rw [hsize hn' hs]
      exact ⟨⟨lit "File too large (max 50MB)", by simp⟩, by simp⟩
  · intro hn hs
    exact hsent hn (by omega)

/-- A file named `report.pdf` of exactly 52428800 bytes is sent, and a file
named `REPORT.PDF` is rejected for its name though it is also too large. -/
theorem upload_rejected_iff_witness :
    endsWith (lit "report.pdf") (lit ".pdf") = true ∧
    endsWith (lit "REPORT.PDF") (lit ".pdf") = false ∧
    UploadEffect.postUpload
        { name := lit "report.pdf", size := 52428800, type := lit "application/pdf" }
      ∈ handleFileUpload
          (some { name := lit "report.pdf", size := 52428800, type := lit "application/pdf" })
          (UploadOutcome.failed []) true ∧
    handleFileUpload
        (some { name := lit "REPORT.PDF", size := 52428801, type := lit "application/pdf" })
        (UploadOutcome.failed []) true
      = [UploadEffect.setUploadError none,
         UploadEffect.setUploadError (some (lit "Only PDF files are allowed")),
         UploadEffect.addToast (lit "Only PDF files are allowed") (lit "error")] :=
  ⟨by decide, by decide,
   (upload_rejected_iff
      { name := lit "report.pdf", size := 52428800, type := lit "application/pdf" }
      (UploadOutcome.failed []) true).2.2.2 (by decide) rfl,
   (upload_rejected_iff
      { name := lit "REPORT.PDF", size := 52428801, type := lit "application/pdf" }
      (UploadOutcome.failed []) true).2.1 (by decide)⟩

end PdfChat

